import Mathlib

/-
  Verification development for the CopperCRM campaign-runtime engine
  (api/services/campaign_runtime.py, api/routers/campaign_runtime.py,
  api/models/campaign_runtime.py, helpers from api/services/email_sender.py).

  The Python service is shallowly embedded as pure Lean functions over an
  explicit database record (`Db`).  External effects (IMAP fetch, SMTP/SES
  transport, LLM completion, uuid generation) are oracles packaged in `Env`.
  Datetimes are modelled as integer UTC timestamps in seconds; a calendar
  day is `fdiv t 86400`.  ORM `save()` calls become functional row updates;
  `create()` calls append rows using fresh ids drawn from counters kept in
  `Db`.  `order_by(...).first()` becomes a stable first-minimum scan
  (`firstMinBy`), which is exactly what a stable sort followed by `first()`
  returns; full `order_by` lists use `List.insertionSort`.
-/

namespace CopperCRM

/-! ### Generic list helpers -/

/-- Stable first-minimum: the first element of `l` that is minimal for the
strict comparison `lt`.  Models the ORM pattern `.order_by(key).first()`
(stable sort + head) as well as Python's `min(xs, key=...)`, both of which
return the earliest element among those with the least key. -/
def firstMinBy {α : Type} (lt : α → α → Bool) : List α → Option α
  | [] => none
  | x :: xs =>
    match firstMinBy lt xs with
    | none => some x
    | some m => if lt m x then some m else some x

theorem firstMinBy_none_iff {α : Type} (lt : α → α → Bool) (l : List α) :
    firstMinBy lt l = none ↔ l = [] := by
  cases l with
  | nil => simp [firstMinBy]
  | cons x xs =>
    simp only [firstMinBy]
    cases h : firstMinBy lt xs with
    | none => simp
    | some m =>
      constructor
      · intro hc
        by_cases hlt : lt m x <;> simp [hlt] at hc
      · intro hc
        exact absurd hc (List.cons_ne_nil _ _)

theorem firstMinBy_mem {α : Type} (lt : α → α → Bool) :
    ∀ (l : List α) (r : α), firstMinBy lt l = some r → r ∈ l := by
  intro l
  induction l with
  | nil => intro r h; simp [firstMinBy] at h
  | cons x xs ih =>
    intro r h
    simp only [firstMinBy] at h
    cases hx : firstMinBy lt xs with
    | none => rw [hx] at h; simp at h; simp [h]
    | some m =>
      rw [hx] at h
      by_cases hlt : lt m x
      · simp [hlt] at h
        subst h
        exact List.mem_cons_of_mem _ (ih _ hx)
      · simp [hlt] at h
        simp [h]

/-- Position-sensitive characterisation of `firstMinBy`: the result splits the
list into a strict-greater prefix and a not-smaller suffix.  `H1` is
transitivity of `lt`, `H2` is transitivity of `¬ lt`; both hold for every
comparison used below (they come from linear orders on sort keys). -/
theorem firstMinBy_split {α : Type} (lt : α → α → Bool)
    (H1 : ∀ a b c, lt a b = true → lt b c = true → lt a c = true)
    (H2 : ∀ a b c, lt a b = false → lt b c = false → lt a c = false) :
    ∀ (l : List α) (r : α), firstMinBy lt l = some r →
      ∃ l₁ l₂, l = l₁ ++ r :: l₂ ∧ (∀ x ∈ l₁, lt r x = true) ∧
        (∀ x ∈ l₂, lt x r = false) := by
  intro l
  induction l with
  | nil => intro r h; simp [firstMinBy] at h
  | cons x xs ih =>
    intro r h
    simp only [firstMinBy] at h
    cases hx : firstMinBy lt xs with
    | none =>
      rw [hx] at h
      simp at h
      subst h
      rw [(firstMinBy_none_iff lt xs).mp hx]
      exact ⟨[], [], rfl, by simp, by simp⟩
    | some m =>
      rw [hx] at h
      obtain ⟨l₁, l₂, hsplit, hpre, hsuf⟩ := ih m hx
      by_cases hlt : lt m x
      · simp [hlt] at h
        subst h
        refine ⟨x :: l₁, l₂, by simp [hsplit], ?_, hsuf⟩
        intro y hy
        rcases List.mem_cons.mp hy with hy | hy
        · subst hy; exact hlt
        · exact hpre y hy
      · simp [hlt] at h
        subst h
        refine ⟨[], xs, by simp, by simp, ?_⟩
        intro y hy
        rw [hsplit] at hy
        rcases List.mem_append.mp hy with hy | hy
        · -- y in the strict-greater prefix of m: lt m y holds
          by_cases hyx : lt y x
          · exact absurd (H1 m y x (hpre y hy) hyx) (by simp [hlt])
          · simpa using hyx
        · rcases List.mem_cons.mp hy with hy | hy
          · subst hy; simpa using hlt
          · exact H2 y m x (hsuf y hy) (by simpa using hlt)

/-- Minimality corollary: the chosen element is not strictly above any member.
`H3` is asymmetry of `lt`. -/
theorem firstMinBy_min {α : Type} (lt : α → α → Bool)
    (H1 : ∀ a b c, lt a b = true → lt b c = true → lt a c = true)
    (H2 : ∀ a b c, lt a b = false → lt b c = false → lt a c = false)
    (H3 : ∀ a b, lt a b = true → lt b a = false)
    (l : List α) (r : α) (h : firstMinBy lt l = some r) :
    ∀ x ∈ l, lt x r = false := by
  obtain ⟨l₁, l₂, hsplit, hpre, hsuf⟩ := firstMinBy_split lt H1 H2 l r h
  intro x hx
  rw [hsplit] at hx
  rcases List.mem_append.mp hx with hx | hx
  · exact H3 r x (hpre x hx)
  · rcases List.mem_cons.mp hx with hx | hx
    · subst hx
      by_cases hr : lt x x
      · exact H3 x x hr
      · simpa using hr
    · exact hsuf x hx

/-! ### Kernel-computable string primitives

`String.toLower`, `trim`, `startsWith`, `drop` and `splitOn` are defined on
byte positions and do not reduce in the kernel, so the embedding uses these
equivalent character-list versions (Python `str.strip` also strips `\v` and
`\f`, which `isSpaceChar` covers). -/

def isSpaceChar (c : Char) : Bool :=
  c == ' ' || c == '\t' || c == '\n' || c == '\r' ||
    c == Char.ofNat 11 || c == Char.ofNat 12

def lowerStr (s : String) : String := ⟨s.data.map Char.toLower⟩

def trimStr (s : String) : String :=
  ⟨((s.data.dropWhile isSpaceChar).reverse.dropWhile isSpaceChar).reverse⟩

def listStarts : List Char → List Char → Bool
  | _, [] => true
  | [], _ :: _ => false
  | c :: cs, p :: ps => c == p && listStarts cs ps

def startsWithChars (s pre : String) : Bool :=
  listStarts s.data pre.data

def dropStr (s : String) (n : Nat) : String := ⟨s.data.drop n⟩

def splitCommaAux : List Char → List Char → List String
  | [], acc => [⟨acc.reverse⟩]
  | c :: cs, acc =>
    if c == ',' then (⟨acc.reverse⟩ : String) :: splitCommaAux cs []
    else splitCommaAux cs (c :: acc)

/-- Python `s.split(",")` (keeps empty pieces). -/
def splitComma (s : String) : List String := splitCommaAux s.data []

/-! ### Python-style truthiness and config reads -/

/-- Truthiness of a nullable string: `None` and `""` are falsy. -/
def optStrTruthy : Option String → Bool
  | some s => s != ""
  | none => false

/-- Python `x or d` for a nullable string (falsy `None`/`""`). -/
def pyStrOr (o : Option String) (d : String) : String :=
  match o with
  | some s => if s = "" then d else s
  | none => d

/-- Python `int(x or d)` for a config integer: `None` and `0` are falsy and
fall back to the default. -/
def pyIntOr (o : Option Int) (d : Int) : Int :=
  match o with
  | some v => if v = 0 then d else v
  | none => d

/-- UTC calendar day of an epoch-seconds timestamp (floor division, matching
`datetime.date()` of an aware UTC datetime). -/
def utcDay (t : Int) : Int := Int.fdiv t 86400

/-! ### The unsubscribe regex

`UNSUBSCRIBE_REGEX = re.compile(r"\b(unsubscribe|stop|opt\s?out|remove me)\b",
re.IGNORECASE)` used via `.search(text)`.  Modelled over ASCII: word
characters are `[A-Za-z0-9_]`, `\s` is the ASCII whitespace class, and
IGNORECASE is realised by lowercasing the text. -/

def isWordChar (c : Char) : Bool := c.isAlphanum || c == '_'

/-- Match a literal pattern at the head of the text, returning the rest. -/
def litMatch : List Char → List Char → Option (List Char)
  | [], cs => some cs
  | _ :: _, [] => none
  | p :: ps, c :: cs => if c == p then litMatch ps cs else none

/-- The rest of the text after a candidate match must start at a word
boundary: end of text or a non-word character (every alternative ends in a
word character). -/
def restBoundaryOk : List Char → Bool
  | [] => true
  | c :: _ => !isWordChar c

/-- Does some alternative of the regex group match at this position, with the
trailing `\b` satisfied?  `opt\s?out` is tried both with one whitespace
character consumed and with none (regex optionality). -/
def unsubAltAt (cs : List Char) : Bool :=
  (match litMatch "unsubscribe".toList cs with
   | some rest => restBoundaryOk rest
   | none => false) ||
  (match litMatch "stop".toList cs with
   | some rest => restBoundaryOk rest
   | none => false) ||
  (match litMatch "opt".toList cs with
   | some rest =>
     (match rest with
      | c :: rest2 =>
        (isSpaceChar c &&
          (match litMatch "out".toList rest2 with
           | some rest3 => restBoundaryOk rest3
           | none => false)) ||
        (match litMatch "out".toList rest with
         | some rest3 => restBoundaryOk rest3
         | none => false)
      | [] => false)
   | none => false) ||
  (match litMatch "remove me".toList cs with
   | some rest => restBoundaryOk rest
   | none => false)

/-- Scan the text: try each position whose preceding character is not a word
character (the leading `\b`; every alternative starts with a word char). -/
def unsubSearchAux : Bool → List Char → Bool
  | _, [] => false
  | prevWord, c :: cs =>
    (!prevWord && unsubAltAt (c :: cs)) || unsubSearchAux (isWordChar c) cs

/-- `UNSUBSCRIBE_REGEX.search(s)` as a Boolean. -/
def unsubRegexSearch (s : String) : Bool :=
  unsubSearchAux false (lowerStr s).data

/-! ### Substring search (for `__icontains` filters) -/

def hasSubstrAux : List Char → List Char → Bool
  | [], ps => ps.isEmpty
  | c :: cs, ps => listStarts (c :: cs) ps || hasSubstrAux cs ps

/-- Case-insensitive containment, modelling the SQL `ILIKE %needle%` used by
`__icontains`. -/
def icontains (hay needle : String) : Bool :=
  hasSubstrAux (lowerStr hay).data (lowerStr needle).data

/-! ### Data model (api/models/leads.py, campaigns.py, campaign_runtime.py)

Ids are `Nat`, datetimes are `Int` epoch seconds.  Columns that no modelled
code path reads (display names, IMAP ports/folders, LLM profile snapshots,
HTML bodies, open-tracking counters, JSON activity metadata) are omitted;
the `leads.company` foreign key is flattened to the `company_name` the entry
filters compare against. -/

/-- `Lead` (api/models/leads.py plus the campaign-runtime columns added by
migration 14: opted_out, opted_out_at, points, last_activity_at/_type). -/
structure Lead where
  id : Nat
  email : Option String
  workEmail : Option String
  optedOut : Bool
  optedOutAt : Option Int
  points : Int
  lastActivityAt : Option Int
  lastActivityType : Option String
  country : Option String
  industries : Option String
  departments : Option String
  seniority : Option String
  jobTitle : Option String
  companyName : Option String
deriving Repr, DecidableEq

structure Campaign where
  id : Nat
  status : String
  audienceSize : Option Int
deriving Repr, DecidableEq

/-- Value of one declarative entry filter (the JSON `value` key): a string,
a list, or null. -/
inductive EntryVal where
  | vstr (v : String)
  | vlist (vs : List String)
  | vnone
deriving Repr, DecidableEq

structure EntryFilter where
  field : String
  op : String
  value : EntryVal
deriving Repr, DecidableEq

/-- The step `config` JSON map, restricted to the keys the runtime reads
(`duration_hours`, `reply_wait_hours`, `event`, `window_hours`, `points`,
`subject`, `filters`; prompt-only keys such as tone/cta are omitted). -/
structure StepConfig where
  durationHours : Option Int := none
  replyWaitHours : Option Int := none
  event : Option String := none
  windowHours : Option Int := none
  points : Option Int := none
  subject : Option String := none
  filters : List EntryFilter := []
deriving Repr, DecidableEq

structure CampaignStep where
  id : Nat
  campaignId : Nat
  stepType : String
  sequence : Int
  config : Option StepConfig
deriving Repr, DecidableEq

structure CampaignEdge where
  id : Nat
  campaignId : Nat
  fromStepId : Nat
  toStepId : Nat
  conditionType : String
  conditionValue : Option String
  order : Int
deriving Repr, DecidableEq

structure LeadCampaignState where
  id : Nat
  leadId : Nat
  campaignId : Nat
  status : String
  currentStepId : Option Nat
  assignedInboxId : Option Nat
  nextStepAt : Option Int
  lastSentAt : Option Int
  threadId : Option String
  lastMessageId : Option String
  createdAt : Int
  updatedAt : Int
deriving Repr, DecidableEq

structure LeadActivity where
  id : Nat
  leadId : Nat
  campaignId : Option Nat
  inboxId : Option Nat
  activityType : String
  occurredAt : Int
deriving Repr, DecidableEq

structure OutboundMessage where
  id : Nat
  leadId : Nat
  campaignId : Option Nat
  inboxId : Option Nat
  stepId : Option Nat
  direction : String
  messageId : String
  threadId : Option String
  subject : Option String
  inReplyTo : Option String
  references : Option String
  sentAt : Option Int
  status : String
  recipientEmail : Option String
  trackingId : Option String
deriving Repr, DecidableEq

structure CampaignEmailDraft where
  id : Nat
  campaignId : Nat
  leadId : Nat
  inboxId : Option Nat
  stepId : Option Nat
  subject : Option String
  bodyText : String
  status : String
  fromEmail : Option String
  toEmail : Option String
  approvedById : Option Nat
  approvedAt : Option Int
  sentAt : Option Int
  createdAt : Int
deriving Repr, DecidableEq

structure OutboundInbox where
  id : Nat
  emailAddress : String
  dailyCap : Int
  dailySent : Int
  lastResetAt : Option Int
  active : Bool
  imapHost : Option String
  imapUsername : Option String
  imapPassword : Option String
  imapLastUid : Option Nat
  imapLastCheckedAt : Option Int
deriving Repr, DecidableEq

/-- The persistent store.  Row lists carry DB insertion order (the order an
unordered `.first()` scans); `next*Id` counters model primary-key
generation, `uuidSeq` indexes the uuid stream used for message/tracking
ids. -/
structure Db where
  leads : List Lead
  campaigns : List Campaign
  steps : List CampaignStep
  edges : List CampaignEdge
  states : List LeadCampaignState
  activities : List LeadActivity
  messages : List OutboundMessage
  drafts : List CampaignEmailDraft
  inboxes : List OutboundInbox
  nextStateId : Nat
  nextActivityId : Nat
  nextMessageRowId : Nat
  nextDraftId : Nat
  uuidSeq : Nat
deriving Repr, DecidableEq

/-- One message as returned by `fetch_new_messages` (services/imap_client.py):
every field is populated, with `""` standing for an absent header (exactly
what the Python code produces via `or ""` / `parseaddr`). -/
structure InboundMsg where
  uid : Nat
  fromAddr : String
  toAddr : String
  subject : String
  messageId : String
  inReplyTo : String
  references : String
  date : Int
  body : String
deriving Repr, DecidableEq

/-- External-world oracles: the clock, the LLM, IMAP, SMTP and the uuid
stream.  An `Except.error` models the call raising. -/
structure Env where
  now : Int
  llmDraftAnswer : Nat → Nat → Except String String
  llmIntentAnswer : String → Except String String
  fetchThreadText : Nat → String → Except String (Option String)
  fetchNewMail : Nat → Option Nat → Except String (List InboundMsg × Option Nat)
  sendMail : Nat → String → Except String Unit
  genMessageId : Nat → String
  genTrackingId : Nat → String

/-! ### Row access and update helpers -/

def leadById (db : Db) (lid : Nat) : Option Lead :=
  db.leads.find? (fun l => l.id == lid)

def campaignById (db : Db) (cid : Nat) : Option Campaign :=
  db.campaigns.find? (fun c => c.id == cid)

def stepById (db : Db) (sid : Nat) : Option CampaignStep :=
  db.steps.find? (fun s => s.id == sid)

def stateById (db : Db) (sid : Nat) : Option LeadCampaignState :=
  db.states.find? (fun s => s.id == sid)

def inboxById (db : Db) (iid : Nat) : Option OutboundInbox :=
  db.inboxes.find? (fun i => i.id == iid)

def draftById (db : Db) (did : Nat) : Option CampaignEmailDraft :=
  db.drafts.find? (fun d => d.id == did)

/-- ORM `save()` on a state row (full-row update keyed by id; `auto_now`
sets `updated_at`). -/
def saveStateRow (db : Db) (s : LeadCampaignState) : Db :=
  { db with states := db.states.map (fun t => if t.id = s.id then s else t) }

def saveLeadRow (db : Db) (l : Lead) : Db :=
  { db with leads := db.leads.map (fun t => if t.id = l.id then l else t) }

def saveInboxRow (db : Db) (i : OutboundInbox) : Db :=
  { db with inboxes := db.inboxes.map (fun t => if t.id = i.id then i else t) }

def saveDraftRow (db : Db) (d : CampaignEmailDraft) : Db :=
  { db with drafts := db.drafts.map (fun t => if t.id = d.id then d else t) }

/-! ### services/campaign_runtime.py — module constants and small helpers -/

/-- `POINTS_BY_ACTIVITY.get(t, 0)`. -/
def activityPoints (t : String) : Int :=
  if t = "email_sent" then 0
  else if t = "email_open" then 1
  else if t = "email_reply" then 5
  else if t = "campaign_enrolled" then 0
  else if t = "goal_reached" then 10
  else 0

/-- `_lead_email`: `lead.work_email or lead.email` (Python truthiness, so an
empty work email falls through). -/
def leadEmailOf (l : Lead) : Option String :=
  if optStrTruthy l.workEmail then l.workEmail else l.email

/-- `_safe_step_config`: `step.config or {}`. -/
def safeStepConfig (s : CampaignStep) : StepConfig :=
  s.config.getD {}

/-- `_reply_wait_hours`: `int(config.get("reply_wait_hours") or 48)`. -/
def replyWaitHours (s : CampaignStep) : Int :=
  pyIntOr (safeStepConfig s).replyWaitHours 48

/-- `_delay_hours`: `int(config.get("duration_hours") or 24)`. -/
def delayHours (s : CampaignStep) : Int :=
  pyIntOr (safeStepConfig s).durationHours 24

/-- `_record_activity`: append the activity row, stamp the lead's
last-activity fields, and credit the fixed per-type points. -/
def recordActivity (env : Env) (db : Db) (leadId : Nat)
    (campaignId inboxId : Option Nat) (activityType : String) : Db :=
  let pts := activityPoints activityType
  let db :=
    { db with
      activities := db.activities ++
        [{ id := db.nextActivityId, leadId := leadId, campaignId := campaignId,
           inboxId := inboxId, activityType := activityType, occurredAt := env.now }],
      nextActivityId := db.nextActivityId + 1 }
  match leadById db leadId with
  | none => db
  | some l =>
    let l := { l with lastActivityAt := some env.now,
                      lastActivityType := some activityType }
    let l := if pts ≠ 0 then { l with points := l.points + pts } else l
    saveLeadRow db l

/-- `_award_points`: no-op for zero, otherwise credit the lead and append a
`points_awarded` activity. -/
def awardPoints (env : Env) (db : Db) (leadId : Nat)
    (campaignId inboxId : Option Nat) (points : Int) : Db :=
  if points = 0 then db
  else
    let db :=
      match leadById db leadId with
      | none => db
      | some l =>
        saveLeadRow db
          { l with points := l.points + points,
                   lastActivityAt := some env.now,
                   lastActivityType := some "points_awarded" }
    { db with
      activities := db.activities ++
        [{ id := db.nextActivityId, leadId := leadId, campaignId := campaignId,
           inboxId := inboxId, activityType := "points_awarded",
           occurredAt := env.now }],
      nextActivityId := db.nextActivityId + 1 }

/-! ### Inbox allocator (§4.2): `_reset_inbox_daily_sent`, `select_inbox_for_lead` -/

/-- `_reset_inbox_daily_sent`: skip if the last reset falls on today's UTC
date, otherwise zero the counter and stamp the reset time. -/
def resetInboxDailySent (now : Int) (i : OutboundInbox) : OutboundInbox :=
  match i.lastResetAt with
  | some t =>
    if utcDay t = utcDay now then i
    else { i with dailySent := 0, lastResetAt := some now }
  | none => { i with dailySent := 0, lastResetAt := some now }

/-- Fetch order of `OutboundInbox.filter(active=True).order_by("daily_sent", "id")`. -/
def inboxFetchLe (a b : OutboundInbox) : Prop :=
  a.dailySent < b.dailySent ∨ (a.dailySent = b.dailySent ∧ a.id ≤ b.id)

instance : DecidableRel inboxFetchLe := fun a b => by
  unfold inboxFetchLe; infer_instance

/-- Strict comparison of the utilization ratios
`daily_sent / max(daily_cap, 1)` by cross-multiplication: both denominators
are at least 1, so this is exactly the Python float comparison
`a.daily_sent / max(a.daily_cap, 1) < b.daily_sent / max(b.daily_cap, 1)`
(up to float rounding, which is immaterial at these magnitudes). -/
def inboxUtilLt (a b : OutboundInbox) : Bool :=
  decide (a.dailySent * max b.dailyCap 1 < b.dailySent * max a.dailyCap 1)

/-- Equality of the utilization ratios, by cross-multiplication. -/
abbrev inboxUtilEq (a b : OutboundInbox) : Prop :=
  a.dailySent * max b.dailyCap 1 = b.dailySent * max a.dailyCap 1

/-- Actives in fetch order, lazily reset, as `select_inbox_for_lead` builds
them in its loop. -/
def resetActivesOf (now : Int) (inboxes : List OutboundInbox) : List OutboundInbox :=
  ((inboxes.filter (fun i => i.active)).insertionSort inboxFetchLe).map
    (resetInboxDailySent now)

/-- The `available` list: reset actives still under their cap. -/
def availableOf (now : Int) (inboxes : List OutboundInbox) : List OutboundInbox :=
  (resetActivesOf now inboxes).filter (fun i => i.dailySent < i.dailyCap)

/-- `select_inbox_for_lead`.  Returns the chosen inbox (or the raised
`HTTPException` detail) together with the inbox table after the lazy resets
were saved.  No actives: raise before any reset; all at cap: raise after the
resets. -/
def selectInboxForLead (now : Int) (inboxes : List OutboundInbox) :
    Except String OutboundInbox × List OutboundInbox :=
  if (inboxes.filter (fun i => i.active)).isEmpty then
    (Except.error "No active outbound inboxes configured", inboxes)
  else
    let updated := inboxes.map
      (fun i => if i.active then resetInboxDailySent now i else i)
    match firstMinBy inboxUtilLt (availableOf now inboxes) with
    | none => (Except.error "All outbound inboxes are at their daily cap", updated)
    | some chosen => (Except.ok chosen, updated)

/-! ### Edge resolver (§4.3): `_find_edge`, `_transition_to_edge` -/

/-- Strict `(order, id)` comparison behind `.order_by("order", "id")`. -/
def edgeOrdLt (a b : CampaignEdge) : Bool :=
  a.order < b.order || (a.order == b.order && a.id < b.id)

/-- Non-strict `(order, id)` relation (for full sorts of edge lists). -/
def edgeOrdLe (a b : CampaignEdge) : Prop :=
  a.order < b.order ∨ (a.order = b.order ∧ a.id ≤ b.id)

instance : DecidableRel edgeOrdLe := fun a b => by
  unfold edgeOrdLe; infer_instance

/-- Strict `(sequence, id)` comparison behind step queries ordered by
sequence (id as the database tiebreak). -/
def stepSeqLt (a b : CampaignStep) : Bool :=
  a.sequence < b.sequence || (a.sequence == b.sequence && a.id < b.id)

/-- `__iexact` against a nullable column: NULL never matches. -/
def iexactOpt (o : Option String) (v : String) : Bool :=
  match o with
  | some s => lowerStr s == lowerStr v
  | none => false

/-- `_find_edge(campaign, step, condition_type, condition_value)`: filter,
order by `(order, id)`, take the first; fall back to the step's `always`
edge when the condition is not itself `always`. -/
def findEdge (edges : List CampaignEdge) (campaignId stepId : Nat)
    (conditionType : String) (conditionValue : Option String := none) :
    Option CampaignEdge :=
  let base := edges.filter
    (fun e => e.campaignId == campaignId && e.fromStepId == stepId)
  let qs := if conditionType ≠ "" then
      base.filter (fun e => e.conditionType == conditionType)
    else base
  let qs :=
    match conditionValue with
    | some v =>
      if v ≠ "" then
        if conditionType = "intent" then
          qs.filter (fun e => iexactOpt e.conditionValue v)
        else
          qs.filter (fun e => e.conditionValue == some v)
      else qs
    | none => qs
  match firstMinBy edgeOrdLt qs with
  | some e => some e
  | none =>
    if conditionType ≠ "always" then
      firstMinBy edgeOrdLt
        (base.filter (fun e => e.conditionType == "always"))
    else none

/-- `_intent_labels_for_step`: lowercased, deduplicated non-empty values of
the step's `intent` edges in `(order, id)` order. -/
def intentLabelsForStep (edges : List CampaignEdge) (campaignId stepId : Nat) :
    List String :=
  let es := (edges.filter
    (fun e => e.campaignId == campaignId && e.fromStepId == stepId &&
      e.conditionType == "intent")).insertionSort edgeOrdLe
  es.foldl
    (fun acc e =>
      let v := lowerStr (trimStr (e.conditionValue.getD ""))
      if v ≠ "" && !(acc.contains v) then acc ++ [v] else acc)
    []

/-- `auto_now` stamp applied by every `state.save()`. -/
def touchState (env : Env) (s : LeadCampaignState) : LeadCampaignState :=
  { s with updatedAt := env.now }

def saveStateNow (env : Env) (db : Db) (s : LeadCampaignState) : Db :=
  saveStateRow db (touchState env s)

/-- `_transition_to_edge(state, edge, fallback_to_sequence)`.  `curStep` is
`state.current_step`; when the fallback path dereferences it while it is
null the Python raises `AttributeError`, modelled as an error result. -/
def transitionToEdge (env : Env) (db : Db) (state : LeadCampaignState)
    (curStep : Option CampaignStep) (edge : Option CampaignEdge)
    (fallbackToSequence : Bool := true) : Except (String × Db) Db :=
  match edge with
  | some e =>
    Except.ok (saveStateNow env db
      { state with currentStepId := some e.toStepId, status := "active",
                   nextStepAt := some env.now })
  | none =>
    if fallbackToSequence then
      match curStep with
      | none =>
        Except.error ("AttributeError: NoneType object has no attribute sequence", db)
      | some cur =>
        match firstMinBy stepSeqLt
          (db.steps.filter
            (fun st => st.campaignId == state.campaignId &&
              cur.sequence < st.sequence)) with
        | some nxt =>
          Except.ok (saveStateNow env db
            { state with currentStepId := some nxt.id, status := "active",
                         nextStepAt := some env.now })
        | none =>
          Except.ok (saveStateNow env db
            { state with status := "completed", nextStepAt := none })
    else
      Except.ok (saveStateNow env db
        { state with status := "completed", nextStepAt := none })

/-- `_entry_step`: the lowest-sequence step typed `entry`, else the
lowest-sequence step of the campaign. -/
def entryStep (db : Db) (campaignId : Nat) : Option CampaignStep :=
  match firstMinBy stepSeqLt
    (db.steps.filter
      (fun s => s.campaignId == campaignId && s.stepType == "entry")) with
  | some s => some s
  | none => firstMinBy stepSeqLt (db.steps.filter (fun s => s.campaignId == campaignId))

/-! ### Subject helpers (services/email_sender.py) -/

/-- `normalize_subject`. -/
def normalizeSubject (subject : Option String)
    (fallback : String := "Quick question") : String :=
  match subject with
  | none => fallback
  | some s =>
    if s = "" then fallback
    else
      let t := trimStr s
      if t = "" then fallback else t

/-- `_strip_subject_prefix` stripped of the leading `Re:` tag. -/
def stripSubjectReTag (subject : String) : String :=
  let s := trimStr subject
  if startsWithChars (lowerStr s) "re:" then trimStr (dropStr s 3) else s

/-- `build_reply_subject`. -/
def buildReplySubject (subject : Option String)
    (fallback : String := "Quick question") : String :=
  "Re: " ++ stripSubjectReTag (normalizeSubject subject fallback)

/-! ### Message and state orderings used by `.first()` queries -/

/-- `a` sorts before `b` under `.order_by("-sent_at", "-id")` (descending,
`NULL` timestamps first, as Postgres orders descending queries). -/
def msgRecentLt (a b : OutboundMessage) : Bool :=
  match a.sentAt, b.sentAt with
  | none, none => a.id > b.id
  | none, some _ => true
  | some _, none => false
  | some x, some y => y < x || (x == y && b.id < a.id)

/-- `a` sorts before `b` under `.order_by("-updated_at")` (ties keep table
order via the stable first-minimum). -/
def stateUpdDescLt (a b : LeadCampaignState) : Bool :=
  b.updatedAt < a.updatedAt

/-! ### Intent classifier (§4.9): `_classify_reply_intent` -/

/-- Post-processing of a model answer: strip/lowercase, then constrain to the
allowed label set (configured labels, else the fixed default set). -/
def pyLabelPost (raw : String) (allowedLabels : Option (List String)) : String :=
  let label := lowerStr (trimStr raw)
  let truthy :=
    match allowedLabels with
    | some ls => !ls.isEmpty
    | none => false
  if truthy then
    if (allowedLabels.getD []).contains label then label else "other"
  else
    if label = "meeting_request" ∨ label = "question" ∨ label = "negative" ∨
        label = "no_interest" then label
    else "other"

/-- `_classify_reply_intent(thread_text, allowed_labels, model)`: the
unsubscribe regex short-circuits before any model call; otherwise the model
is consulted (it may raise) and its answer constrained. -/
def classifyReplyIntent (env : Env) (threadText : String)
    (allowedLabels : Option (List String)) : Except String String :=
  if unsubRegexSearch threadText then Except.ok "unsubscribe"
  else
    match env.llmIntentAnswer threadText with
    | Except.error e => Except.error e
    | Except.ok raw => Except.ok (pyLabelPost raw allowedLabels)

/-! ### Draft generator (§4.5): `_generate_email_body`, `_fetch_thread_text`,
`create_email_draft` -/

/-- `_generate_email_body`: the LLM call (oracle) may raise; an empty
stripped completion raises `ValueError("Empty response from model")`. -/
def generateEmailBody (env : Env) (lead : Lead) (step : CampaignStep) :
    Except String String :=
  match env.llmDraftAnswer lead.id step.id with
  | Except.error e => Except.error e
  | Except.ok raw =>
    let content := trimStr raw
    if content = "" then Except.error "Empty response from model"
    else Except.ok content

/-- `_fetch_thread_text`: only polls when host/username/password are all
truthy; `none` models an empty thread. -/
def fetchThreadTextM (env : Env) (inbox : OutboundInbox) (leadEmail : String) :
    Except String (Option String) :=
  if optStrTruthy inbox.imapHost && optStrTruthy inbox.imapUsername &&
      optStrTruthy inbox.imapPassword then
    env.fetchThreadText inbox.id leadEmail
  else Except.ok none

/-- Tail of `create_email_draft` once the lead, its email and the inbox are
resolved: fetch the thread, generate the body, compute the subject, persist
the pending draft, move the state to `waiting_approval`, log
`draft_created`. -/
def createEmailDraftCont (env : Env) (db : Db) (state : LeadCampaignState)
    (campaign : Campaign) (step : CampaignStep) (lead : Lead)
    (leadEmail : String) (inbox : OutboundInbox) : Except (String × Db) Db :=
  match fetchThreadTextM env inbox leadEmail with
  | Except.error e => Except.error (e, db)
  | Except.ok threadText =>
    match generateEmailBody env lead step with
    | Except.error e => Except.error (e, db)
    | Except.ok body =>
      let lastMessage := firstMinBy msgRecentLt
        (db.messages.filter
          (fun m => m.leadId == lead.id && m.campaignId == some campaign.id &&
            m.direction == "outbound"))
      let useReply :=
        (match threadText with | some tt => tt != "" | none => false) &&
        (match lastMessage with | some lm => optStrTruthy lm.subject | none => false)
      let subject :=
        if useReply then buildReplySubject (lastMessage.bind (fun lm => lm.subject))
        else normalizeSubject (match step.config with | some c => c.subject | none => none)
      let draft : CampaignEmailDraft :=
        { id := db.nextDraftId, campaignId := campaign.id, leadId := lead.id,
          inboxId := some inbox.id, stepId := some step.id,
          subject := some subject, bodyText := body, status := "pending",
          fromEmail := some inbox.emailAddress, toEmail := some leadEmail,
          approvedById := none, approvedAt := none, sentAt := none,
          createdAt := env.now }
      let db := { db with drafts := db.drafts ++ [draft],
                          nextDraftId := db.nextDraftId + 1 }
      let db := saveStateNow env db { state with status := "waiting_approval" }
      let db := recordActivity env db lead.id (some campaign.id) (some inbox.id)
        "draft_created"
      Except.ok db

/-- `create_email_draft(state, campaign, step)`. -/
def createEmailDraft (env : Env) (db : Db) (state : LeadCampaignState)
    (campaign : Campaign) (step : CampaignStep) : Except (String × Db) Db :=
  match leadById db state.leadId with
  | none => Except.error ("Lead row missing", db)
  | some lead =>
    let le := leadEmailOf lead
    if !optStrTruthy le then Except.error ("Lead has no email", db)
    else
      let leadEmail := le.getD ""
      match state.assignedInboxId with
      | some iid =>
        match inboxById db iid with
        | none => Except.error ("Inbox row missing", db)
        | some inbox => createEmailDraftCont env db state campaign step lead leadEmail inbox
      | none =>
        let pick := selectInboxForLead env.now db.inboxes
        let db := { db with inboxes := pick.2 }
        match pick.1 with
        | Except.error e => Except.error (e, db)
        | Except.ok inbox =>
          let state := touchState env { state with assignedInboxId := some inbox.id }
          let db := saveStateRow db state
          createEmailDraftCont env db state campaign step lead leadEmail inbox

/-! ### Sender + approval gate (§4.6, §4.7): `send_draft_email`,
`decide_campaign_draft` -/

/-- `send_draft_email(draft, user)`.  Note the unguarded
`last_message.references` on the reply-header line: when no prior outbound
message exists for (lead, campaign) the Python raises `AttributeError`
before anything is sent or saved. -/
def sendDraftEmail (env : Env) (db : Db) (draftId : Nat) (userId : Option Nat) :
    Except (String × Db) (Db × OutboundMessage) :=
  match draftById db draftId with
  | none => Except.error ("Draft row missing", db)
  | some draft =>
    match leadById db draft.leadId, campaignById db draft.campaignId with
    | some lead, some campaign =>
      match draft.inboxId.bind (inboxById db) with
      | none => Except.error ("Draft has no inbox assigned", db)
      | some inbox =>
        let te := if optStrTruthy draft.toEmail then draft.toEmail else leadEmailOf lead
        if !optStrTruthy te then Except.error ("Lead has no email", db)
        else
          let toEmail := te.getD ""
          let trackingId := env.genTrackingId db.uuidSeq
          let db := { db with uuidSeq := db.uuidSeq + 1 }
          let lastMessage := firstMinBy msgRecentLt
            (db.messages.filter
              (fun m => m.leadId == lead.id && m.campaignId == some campaign.id &&
                m.direction == "outbound"))
          let inReplyTo : Option String := lastMessage.map (fun lm => lm.messageId)
          match lastMessage with
          | none =>
            Except.error
              ("AttributeError: NoneType object has no attribute references", db)
          | some lm =>
            let references : Option String :=
              if optStrTruthy lm.references then lm.references else some lm.messageId
            let messageId := env.genMessageId db.uuidSeq
            let db := { db with uuidSeq := db.uuidSeq + 1 }
            match env.sendMail inbox.id toEmail with
            | Except.error e => Except.error (e, db)
            | Except.ok _ =>
              let inbox := { inbox with dailySent := inbox.dailySent + 1 }
              let db := saveInboxRow db inbox
              let threadId :=
                if optStrTruthy lm.threadId then lm.threadId.getD "" else messageId
              let message : OutboundMessage :=
                { id := db.nextMessageRowId, leadId := lead.id,
                  campaignId := some campaign.id, inboxId := some inbox.id,
                  stepId := draft.stepId, direction := "outbound",
                  messageId := messageId, threadId := some threadId,
                  subject := some (normalizeSubject draft.subject),
                  inReplyTo := inReplyTo, references := references,
                  sentAt := some env.now, status := "sent",
                  recipientEmail := some toEmail, trackingId := some trackingId }
              let db := { db with messages := db.messages ++ [message],
                                  nextMessageRowId := db.nextMessageRowId + 1 }
              let draft := { draft with status := "sent", sentAt := some env.now,
                                        approvedAt := some env.now,
                                        approvedById := userId }
              let db := saveDraftRow db draft
              let db :=
                match db.states.find?
                    (fun s => s.leadId == lead.id && s.campaignId == campaign.id),
                  draft.stepId.bind (stepById db) with
                | some st, some stp =>
                  saveStateNow env db
                    { st with status := "waiting_reply", currentStepId := some stp.id,
                              lastSentAt := some env.now,
                              lastMessageId := some messageId,
                              threadId := some threadId,
                              nextStepAt := some (env.now + 3600 * replyWaitHours stp) }
                | _, _ => db
              let db := recordActivity env db lead.id (some campaign.id)
                (some inbox.id) "email_sent"
              Except.ok (db, message)
    | _, _ => Except.error ("Lead or campaign row missing", db)

/-- `decide_campaign_draft` (routers/campaign_runtime.py): validate the
decision, fetch the draft, then either mark it rejected and force the state
to `stopped`, or send it. -/
def decideCampaignDraft (env : Env) (db : Db) (draftId : Nat)
    (decision : String) (userId : Option Nat) : Except (String × Db) Db :=
  if decision = "approved" ∨ decision = "rejected" then
    match draftById db draftId with
    | none => Except.error ("Draft not found", db)
    | some draft =>
      if decision = "rejected" then
        let draft := { draft with status := "rejected",
                                  approvedAt := some env.now,
                                  approvedById := userId }
        let db := saveDraftRow db draft
        let db :=
          match db.states.find?
              (fun s => s.leadId == draft.leadId && s.campaignId == draft.campaignId) with
          | some st => saveStateNow env db { st with status := "stopped" }
          | none => db
        Except.ok db
      else
        (sendDraftEmail env db draftId userId).map (fun p => p.1)
  else Except.error ("decision must be approved or rejected", db)

/-! ### Reply ingestor (§4.8): `process_reply_events` -/

/-- Statuses a reply correlates against (`process_reply_events`). -/
def replyCorrelationStatuses : List String :=
  ["waiting_reply", "waiting_delay", "waiting_condition", "waiting_approval", "active"]

/-- The guard `if state.next_step_at and state.next_step_at > now`. -/
def notYetDue (s : LeadCampaignState) (now : Int) : Bool :=
  match s.nextStepAt with
  | some t => now < t
  | none => false

/-- The `get_or_create` of the inbound OutboundMessage row inside the
message loop of `process_reply_events`: dedup on `message_id`, else append
the `direction="inbound"` row. -/
def replyRecordRow (db : Db) (inbox : OutboundInbox) (m : InboundMsg)
    (lead : Lead) (campaignId? : Option Nat) : Db :=
  let mid := if m.messageId ≠ "" then m.messageId
             else "inbound-" ++ toString m.uid
  if db.messages.any (fun om => om.messageId == mid) then db
  else
    { db with
      messages := db.messages ++
        [{ id := db.nextMessageRowId, leadId := lead.id,
           campaignId := campaignId?, inboxId := some inbox.id,
           stepId := none, direction := "inbound", messageId := mid,
           threadId := some (if m.inReplyTo ≠ "" then m.inReplyTo else m.references),
           subject := some m.subject, inReplyTo := some m.inReplyTo,
           references := some m.references, sentAt := some m.date,
           status := "received", recipientEmail := some inbox.emailAddress,
           trackingId := none }],
      nextMessageRowId := db.nextMessageRowId + 1 }

/-- The unsubscribe stamp of the message loop (sets `opted_out`). -/
def optOutStamp (env : Env) (db : Db) (lid : Nat) : Db :=
  match leadById db lid with
  | some l => saveLeadRow db { l with optedOut := true, optedOutAt := some env.now }
  | none => db

/-- Reply-step resolution of the message loop: the step of the most recent
outbound message, else the correlated state's current step. -/
def replyStepOf (db : Db) (lead : Lead)
    (campaignState? : Option LeadCampaignState) (campaignId? : Option Nat) :
    Option CampaignStep :=
  let rs := campaignState?.bind (fun s => s.currentStepId.bind (stepById db))
  match campaignId? with
  | some cid =>
    let lastOutbound := firstMinBy msgRecentLt
      (db.messages.filter
        (fun om => om.leadId == lead.id && om.campaignId == some cid &&
          om.direction == "outbound"))
    match lastOutbound with
    | some lo =>
      match lo.stepId.bind (stepById db) with
      | some stp => some stp
      | none => rs
    | none => rs
  | none => rs

/-- The reply-edge transition of the message loop (best-effort: a failing
transition is swallowed, as the reply edge is optional). -/
def replyTransition (env : Env) (db : Db) (cs : LeadCampaignState)
    (rstep : CampaignStep) : Db :=
  match findEdge db.edges cs.campaignId rstep.id "reply" with
  | some e =>
    match transitionToEdge env db cs (cs.currentStepId.bind (stepById db))
        (some e) false with
    | Except.ok db₁ => db₁
    | Except.error _ => db
  | none => db

/-- The message loop body once its From address resolved to a lead. -/
def replyMsgCont (env : Env) (db : Db) (inbox : OutboundInbox)
    (m : InboundMsg) (lead : Lead) : Db × Bool :=
  let campaignState? := firstMinBy stateUpdDescLt
    (db.states.filter
      (fun s => s.leadId == lead.id &&
        replyCorrelationStatuses.contains s.status))
  let campaignId? := campaignState?.map (fun s => s.campaignId)
  let db := replyRecordRow db inbox m lead campaignId?
  let db := recordActivity env db lead.id campaignId? (some inbox.id) "email_reply"
  let db := if unsubRegexSearch m.body then optOutStamp env db lead.id else db
  let replyStep? := replyStepOf db lead campaignState? campaignId?
  let db :=
    match campaignState?, replyStep? with
    | some cs, some rstep => replyTransition env db cs rstep
    | _, _ => db
  (db, true)

/-- Body of the message loop in `process_reply_events` for one fetched
message; the Boolean reports whether `reply_count` was incremented. -/
def processReplyMsg (env : Env) (db : Db) (inbox : OutboundInbox)
    (m : InboundMsg) : Db × Bool :=
  if m.fromAddr = "" || lowerStr m.fromAddr == lowerStr inbox.emailAddress then
    (db, false)
  else
    match db.leads.find?
        (fun l => l.workEmail == some m.fromAddr || l.email == some m.fromAddr) with
    | none => (db, false)
    | some lead => replyMsgCont env db inbox m lead

/-- `process_reply_events(inbox)`: skip inboxes without IMAP credentials,
fetch past the high-water mark (the fetch may raise), process each message,
then advance `imap_last_uid` / `imap_last_checked_at` only at the end. -/
def processReplyEvents (env : Env) (db : Db) (inboxId : Nat) :
    Except (String × Db) (Db × Nat) :=
  match inboxById db inboxId with
  | none => Except.ok (db, 0)
  | some inbox =>
    if !(optStrTruthy inbox.imapHost && optStrTruthy inbox.imapUsername &&
        optStrTruthy inbox.imapPassword) then
      Except.ok (db, 0)
    else
      match env.fetchNewMail inbox.id inbox.imapLastUid with
      | Except.error e => Except.error (e, db)
      | Except.ok (msgs, newestUid) =>
        let res := msgs.foldl
          (fun (acc : Db × Nat) m =>
            let r := processReplyMsg env acc.1 inbox m
            (r.1, acc.2 + (if r.2 then 1 else 0)))
          (db, 0)
        let db1 := res.1
        let db2 :=
          match newestUid with
          | none => db1
          | some u =>
            if inbox.imapLastUid == some u then db1
            else saveInboxRow db1
              { inbox with imapLastUid := some u, imapLastCheckedAt := some env.now }
        Except.ok (db2, res.2)

/-! ### State processor (§4.4): `process_state` -/

/-- Dispatch on `step.step_type` once `process_state` has a current step
(the second half of the Python function). -/
def processStepDispatch (env : Env) (db : Db) (state : LeadCampaignState)
    (lead : Lead) (campaign : Campaign) (st : CampaignStep) :
    Except (String × Db) Db :=
  if st.stepType = "entry" then
    transitionToEdge env db state (some st) (findEdge db.edges campaign.id st.id "always")
  else if st.stepType = "delay" then
    if state.status ≠ "waiting_delay" then
      Except.ok (saveStateNow env db
        { state with status := "waiting_delay",
                     nextStepAt := some (env.now + 3600 * delayHours st) })
    else Except.ok db
  else if st.stepType = "condition" then
    let cfg := safeStepConfig st
    let event := lowerStr (trimStr (pyStrOr cfg.event "email_open"))
    let windowHours := pyIntOr cfg.windowHours 48
    let since := match state.lastSentAt with
      | some t => t
      | none => state.updatedAt
    let trip :=
      if event = "open" ∨ event = "opened" ∨ event = "email_open" then
        ("email_open", "open", "no_open")
      else if event = "reply" ∨ event = "email_reply" then
        ("email_reply", "reply", "no_reply")
      else (event, "event", "no_event")
    let hasActivity := db.activities.any
      (fun a => a.leadId == lead.id && a.activityType == trip.1 &&
        decide (since ≤ a.occurredAt))
    if hasActivity then
      transitionToEdge env db state (some st)
        (findEdge db.edges campaign.id st.id trip.2.1)
    else
      let expiresAt := since + 3600 * windowHours
      if env.now < expiresAt then
        Except.ok (saveStateNow env db
          { state with status := "waiting_condition", nextStepAt := some expiresAt })
      else
        transitionToEdge env db state (some st)
          (findEdge db.edges campaign.id st.id trip.2.2)
  else if st.stepType = "ai_email" then
    match db.drafts.find?
        (fun d => d.campaignId == campaign.id && d.leadId == lead.id &&
          d.stepId == some st.id && d.status == "pending") with
    | some _ => Except.ok (saveStateNow env db { state with status := "waiting_approval" })
    | none => createEmailDraft env db state campaign st
  else if st.stepType = "ai_decision" then
    let inbox? := state.assignedInboxId.bind (inboxById db)
    let le := leadEmailOf lead
    let fetchRes : Except String (Option String) :=
      match inbox?, le with
      | some ib, some em =>
        if em ≠ "" then fetchThreadTextM env ib em else Except.ok none
      | _, _ => Except.ok none
    match fetchRes with
    | Except.error e => Except.error (e, db)
    | Except.ok threadText? =>
      let ttTruthy := match threadText? with
        | some tt => tt != ""
        | none => false
      if !ttTruthy then
        transitionToEdge env db state (some st)
          (findEdge db.edges campaign.id st.id "no_reply")
      else
        let tt := threadText?.getD ""
        let allowed := intentLabelsForStep db.edges campaign.id st.id
        match classifyReplyIntent env tt
            (if allowed.isEmpty then none else some allowed) with
        | Except.error e => Except.error (e, db)
        | Except.ok intent =>
          match transitionToEdge env db state (some st)
              (findEdge db.edges campaign.id st.id "intent" (some intent)) with
          | Except.error e => Except.error e
          | Except.ok db₁ =>
            Except.ok (recordActivity env db₁ lead.id (some campaign.id)
              (inbox?.map (fun i => i.id)) "decision")
  else if st.stepType = "goal" then
    let db := saveStateNow env db { state with status := "completed" }
    Except.ok (recordActivity env db lead.id (some campaign.id)
      state.assignedInboxId "goal_reached")
  else if st.stepType = "points" then
    let cfg := safeStepConfig st
    let pts := pyIntOr cfg.points 0
    let db := awardPoints env db lead.id (some campaign.id) state.assignedInboxId pts
    transitionToEdge env db state (some st)
      (findEdge db.edges campaign.id st.id "always")
  else if st.stepType = "exit" then
    Except.ok (saveStateNow env db { state with status := "stopped" })
  else Except.ok db

/-- `process_state(state)`: the opt-out guard pre-empts everything, the
waiting statuses handle their timers, otherwise the current step (or the
campaign's entry step) is dispatched. -/
def processState (env : Env) (db : Db) (stateId : Nat) : Except (String × Db) Db :=
  match stateById db stateId with
  | none => Except.ok db
  | some state =>
    match leadById db state.leadId with
    | none => Except.ok db
    | some lead =>
      if lead.optedOut then
        Except.ok (saveStateNow env db { state with status := "stopped" })
      else
        match campaignById db state.campaignId with
        | none => Except.ok db
        | some campaign =>
          let step? := state.currentStepId.bind (stepById db)
          if state.status = "waiting_approval" then Except.ok db
          else if state.status = "waiting_delay" then
            if notYetDue state env.now then Except.ok db
            else
              let edge := match step? with
                | some stp => findEdge db.edges campaign.id stp.id "always"
                | none => none
              transitionToEdge env db state step? edge
          else if state.status = "waiting_condition" then
            if notYetDue state env.now then Except.ok db
            else
              match step? with
              | some stp =>
                let cfg := safeStepConfig stp
                let event := lowerStr (trimStr (pyStrOr cfg.event "email_open"))
                let noType :=
                  if event = "reply" ∨ event = "email_reply" then "no_reply"
                  else if event = "open" ∨ event = "opened" ∨ event = "email_open" then
                    "no_open"
                  else "no_event"
                transitionToEdge env db state step?
                  (findEdge db.edges campaign.id stp.id noType)
              | none =>
                Except.ok (saveStateNow env db { state with status := "completed" })
          else if state.status = "waiting_reply" then
            if notYetDue state env.now then Except.ok db
            else
              match step? with
              | some stp =>
                transitionToEdge env db state step?
                  (findEdge db.edges campaign.id stp.id "no_reply")
              | none =>
                Except.ok (saveStateNow env db { state with status := "completed" })
          else
            match step? with
            | none =>
              match entryStep db campaign.id with
              | none =>
                Except.ok (saveStateNow env db { state with status := "completed" })
              | some entry =>
                let state := touchState env
                  { state with currentStepId := some entry.id, status := "active",
                               nextStepAt := some env.now }
                let db := saveStateRow db state
                processStepDispatch env db state lead campaign entry
            | some stp => processStepDispatch env db state lead campaign stp

/-! ### Enrollment (§4.1): `enroll_leads_for_campaign` -/

def enrollActiveStatuses : List String :=
  ["pending", "active", "waiting_reply", "waiting_delay", "waiting_condition",
   "waiting_approval"]

/-- The `allowed` field map of `_apply_entry_filters`. -/
def leadColumnOf (l : Lead) : String → Option (Option String)
  | "country" => some l.country
  | "industries" => some l.industries
  | "departments" => some l.departments
  | "seniority" => some l.seniority
  | "job_title" => some l.jobTitle
  | "company" => some l.companyName
  | _ => none

/-- A list-valued filter `value` crashes `_apply_entry_filters`: its guard
`value in {None, ""}` is a set-membership test, which raises
`TypeError: unhashable type: list` on a list — unless the empty-`field`
disjunct short-circuits the test first. -/
def entryFilterCrashes (f : EntryFilter) : Bool :=
  (trimStr f.field != "") &&
    match f.value with
    | EntryVal.vlist _ => true
    | _ => false

/-- One declarative entry filter applied to a lead, on the domain where
`_apply_entry_filters` does not raise (see `entryFilterCrashes`); filters
the Python skips impose no constraint (result `true`).  The list-valued
arms spell out what the `op == "in"` branch would apply, but on a faithful
run a list value never reaches them: the membership test raises first. -/
def entryFilterTest (f : EntryFilter) (l : Lead) : Bool :=
  let field := trimStr f.field
  let op := lowerStr (trimStr (if f.op = "" then "equals" else f.op))
  let skipValue :=
    match f.value with
    | EntryVal.vnone => true
    | EntryVal.vstr v => v = ""
    | EntryVal.vlist _ => false
  if field = "" || skipValue then true
  else
    match leadColumnOf l field with
    | none => true
    | some col =>
      if op = "equals" then
        match f.value with
        | EntryVal.vstr v => col == some v
        | _ => false
      else if op = "contains" then
        match f.value, col with
        | EntryVal.vstr v, some s => icontains s v
        | _, _ => false
      else if op = "in" then
        let values :=
          match f.value with
          | EntryVal.vlist vs => vs
          | EntryVal.vstr v =>
            ((splitComma v).map trimStr).filter (fun x => x ≠ "")
          | EntryVal.vnone => []
        if values.isEmpty then true
        else
          match col with
          | some s => values.contains s
          | none => false
      else true

def leadIdLe (a b : Lead) : Prop := a.id ≤ b.id

instance : DecidableRel leadIdLe := fun a b => by
  unfold leadIdLe; infer_instance

/-- Per-lead body of the enrollment loop: allocate an inbox (its lazy resets
are saved even when allocation then fails), create the state at the entry
step, and log `campaign_enrolled`. -/
def enrollLoop (env : Env) (c : Campaign) (entry : CampaignStep) :
    Db → List Lead → Nat → Except (String × Db) (Db × Nat)
  | db, [], n => Except.ok (db, n)
  | db, l :: rest, n =>
    let pick := selectInboxForLead env.now db.inboxes
    let db := { db with inboxes := pick.2 }
    match pick.1 with
    | Except.error e => Except.error (e, db)
    | Except.ok inbox =>
      let st : LeadCampaignState :=
        { id := db.nextStateId, leadId := l.id, campaignId := c.id,
          status := "active", currentStepId := some entry.id,
          assignedInboxId := some inbox.id, nextStepAt := some env.now,
          lastSentAt := none, threadId := none, lastMessageId := none,
          createdAt := env.now, updatedAt := env.now }
      let db := { db with states := db.states ++ [st],
                          nextStateId := db.nextStateId + 1 }
      let db := recordActivity env db l.id (some c.id) (some inbox.id)
        "campaign_enrolled"
      enrollLoop env c entry db rest (n + 1)

/-- Candidate selection and loop of `enroll_leads_for_campaign` after the
audience-cap early returns. -/
def enrollCont (env : Env) (db : Db) (c : Campaign) (limit : Option Int) :
    Except (String × Db) (Db × Nat) :=
  match entryStep db c.id with
  | none => Except.ok (db, 0)
  | some entry =>
    let entryCfg := safeStepConfig entry
    if entryCfg.filters.any (fun f => entryFilterCrashes f) then
      Except.error ("TypeError: unhashable type: list", db)
    else
      let contactedIds := (db.messages.filter
        (fun m => m.direction == "outbound")).map (fun m => m.leadId)
      let candidates := db.leads.filter
        (fun l =>
          !l.optedOut &&
          !(db.states.any (fun s => s.leadId == l.id && s.campaignId == c.id)) &&
          !(db.states.any
            (fun s => s.leadId == l.id && enrollActiveStatuses.contains s.status)) &&
          !(contactedIds.contains l.id) &&
          (l.workEmail != none || l.email != none))
      let ordered := candidates.insertionSort leadIdLe
      let filtered := ordered.filter
        (fun l => entryCfg.filters.all (fun f => entryFilterTest f l))
      let limited :=
        match limit with
        | some n => filtered.take n.toNat
        | none => filtered
      enrollLoop env c entry db limited 0

/-- `enroll_leads_for_campaign(campaign)`. -/
def enrollLeadsForCampaign (env : Env) (db : Db) (c : Campaign) :
    Except (String × Db) (Db × Nat) :=
  let existingCount := (db.states.filter (fun s => s.campaignId == c.id)).length
  match c.audienceSize with
  | some m =>
    if m ≤ (existingCount : Int) then Except.ok (db, 0)
    else enrollCont env db c (some (m - existingCount))
  | none => enrollCont env db c none

/-! ### Tick orchestrator (§2, §5): `run_campaign_tick` -/

/-- Sort rank of `next_step_at` under `.order_by("next_step_at", "id")`
(ascending, NULLs last as Postgres orders them). -/
def stateNsRank (s : LeadCampaignState) : Int :=
  match s.nextStepAt with
  | some _ => 0
  | none => 1

def stateNsVal (s : LeadCampaignState) : Int :=
  match s.nextStepAt with
  | some t => t
  | none => 0

def stateLoopLe (a b : LeadCampaignState) : Prop :=
  stateNsRank a < stateNsRank b ∨
    (stateNsRank a = stateNsRank b ∧
      (stateNsVal a < stateNsVal b ∨
        (stateNsVal a = stateNsVal b ∧ a.id ≤ b.id)))

instance : DecidableRel stateLoopLe := fun a b => by
  unfold stateLoopLe; infer_instance

/-- The per-campaign state loop: skip states whose `next_step_at` is still
in the future, otherwise process (an exception aborts the remainder). -/
def processDue (env : Env) : Db → List LeadCampaignState → Except (String × Db) (Db × Nat)
  | db, [] => Except.ok (db, 0)
  | db, s :: rest =>
    if notYetDue s env.now then processDue env db rest
    else
      match processState env db s.id with
      | Except.error e => Except.error e
      | Except.ok db₁ =>
        match processDue env db₁ rest with
        | Except.error e => Except.error e
        | Except.ok (db₂, n) => Except.ok (db₂, n + 1)

/-- Fetch-and-process of one campaign's states inside `run_campaign_tick`. -/
def statesPhase (env : Env) (db : Db) (campaignId : Nat) :
    Except (String × Db) (Db × Nat) :=
  processDue env db
    ((db.states.filter (fun s => s.campaignId == campaignId)).insertionSort stateLoopLe)

/-- Per-campaign enrollment + state processing, sequentially, counting
(enrolled, processed). -/
def campaignLoop (env : Env) : Db → List Nat → Except (String × Db) (Db × Nat × Nat)
  | db, [] => Except.ok (db, 0, 0)
  | db, cid :: rest =>
    match campaignById db cid with
    | none => campaignLoop env db rest
    | some c =>
      match enrollLeadsForCampaign env db c with
      | Except.error e => Except.error e
      | Except.ok (db₁, en) =>
        match statesPhase env db₁ cid with
        | Except.error e => Except.error e
        | Except.ok (db₂, pr) =>
          match campaignLoop env db₂ rest with
          | Except.error e => Except.error e
          | Except.ok (db₃, rest2) => Except.ok (db₃, en + rest2.1, pr + rest2.2)

/-- Reply ingestion across the active inboxes, sequentially. -/
def repliesLoop (env : Env) : Db → List Nat → Except (String × Db) (Db × Nat)
  | db, [] => Except.ok (db, 0)
  | db, iid :: rest =>
    match processReplyEvents env db iid with
    | Except.error e => Except.error e
    | Except.ok (db₁, n) =>
      match repliesLoop env db₁ rest with
      | Except.error e => Except.error e
      | Except.ok (db₂, ns) => Except.ok (db₂, n + ns)

/-- The launched campaigns selected by the optional `campaign_id` parameter
(a falsy id, `None` or `0`, selects them all). -/
def selectedCampaignsOf (db : Db) (sel : Option Nat) : List Campaign :=
  match sel with
  | some cid =>
    if cid ≠ 0 then
      db.campaigns.filter (fun c => c.id == cid && c.status == "launched")
    else db.campaigns.filter (fun c => c.status == "launched")
  | none => db.campaigns.filter (fun c => c.status == "launched")

structure TickStats where
  campaigns : Nat
  enrolled : Nat
  processed : Nat
  replies : Nat
deriving Repr, DecidableEq

/-- `run_campaign_tick(campaign_id)`: replies over every active inbox, then
per launched campaign enrollment followed by the due-state loop.  There is
no exception handling anywhere on this path: an error in any unit aborts
the tick (the error carries the database as committed so far). -/
def runCampaignTick (env : Env) (db : Db) (sel : Option Nat := none) :
    Except (String × Db) (Db × TickStats) :=
  let selected := selectedCampaignsOf db sel
  let inboxIds := (db.inboxes.filter (fun i => i.active)).map (fun i => i.id)
  match repliesLoop env db inboxIds with
  | Except.error e => Except.error e
  | Except.ok (db₁, replies) =>
    match campaignLoop env db₁ (selected.map (fun c => c.id)) with
    | Except.error e => Except.error e
    | Except.ok (db₂, counts) =>
      Except.ok (db₂,
        { campaigns := selected.length, enrolled := counts.1,
          processed := counts.2, replies := replies })

/-! ## Properties of the sort comparisons -/

theorem edgeOrdLt_trans :
    ∀ a b c, edgeOrdLt a b = true → edgeOrdLt b c = true → edgeOrdLt a c = true := by
  intro a b c hab hbc
  simp only [edgeOrdLt, Bool.or_eq_true, Bool.and_eq_true, decide_eq_true_eq,
    beq_iff_eq] at *
  omega

theorem edgeOrdLt_negtrans :
    ∀ a b c, edgeOrdLt a b = false → edgeOrdLt b c = false → edgeOrdLt a c = false := by
  intro a b c hab hbc
  simp only [edgeOrdLt, Bool.or_eq_false_iff, Bool.and_eq_false_iff,
    decide_eq_false_iff_not, beq_eq_false_iff_ne, ne_eq, not_lt] at *
  omega

theorem edgeOrdLt_asymm :
    ∀ a b, edgeOrdLt a b = true → edgeOrdLt b a = false := by
  intro a b hab
  simp only [edgeOrdLt, Bool.or_eq_true, Bool.and_eq_true, Bool.or_eq_false_iff,
    Bool.and_eq_false_iff, decide_eq_true_eq, decide_eq_false_iff_not,
    beq_iff_eq, beq_eq_false_iff_ne, ne_eq, not_lt] at *
  omega

theorem stepSeqLt_trans :
    ∀ a b c, stepSeqLt a b = true → stepSeqLt b c = true → stepSeqLt a c = true := by
  intro a b c hab hbc
  simp only [stepSeqLt, Bool.or_eq_true, Bool.and_eq_true, decide_eq_true_eq,
    beq_iff_eq] at *
  omega

theorem stepSeqLt_negtrans :
    ∀ a b c, stepSeqLt a b = false → stepSeqLt b c = false → stepSeqLt a c = false := by
  intro a b c hab hbc
  simp only [stepSeqLt, Bool.or_eq_false_iff, Bool.and_eq_false_iff,
    decide_eq_false_iff_not, beq_eq_false_iff_ne, ne_eq, not_lt] at *
  omega

theorem stepSeqLt_asymm :
    ∀ a b, stepSeqLt a b = true → stepSeqLt b a = false := by
  intro a b hab
  simp only [stepSeqLt, Bool.or_eq_true, Bool.and_eq_true, Bool.or_eq_false_iff,
    Bool.and_eq_false_iff, decide_eq_true_eq, decide_eq_false_iff_not,
    beq_iff_eq, beq_eq_false_iff_ne, ne_eq, not_lt] at *
  omega

theorem inboxUtilLt_trans :
    ∀ a b c, inboxUtilLt a b = true → inboxUtilLt b c = true → inboxUtilLt a c = true := by
  intro a b c hab hbc
  simp only [inboxUtilLt, decide_eq_true_eq] at *
  have hca : (0:Int) < max a.dailyCap 1 := lt_of_lt_of_le one_pos (le_max_right _ _)
  have hcb : (0:Int) < max b.dailyCap 1 := lt_of_lt_of_le one_pos (le_max_right _ _)
  have hcc : (0:Int) < max c.dailyCap 1 := lt_of_lt_of_le one_pos (le_max_right _ _)
  nlinarith [mul_lt_mul_of_pos_right hab hcc, mul_lt_mul_of_pos_right hbc hca]

theorem inboxUtilLt_negtrans :
    ∀ a b c, inboxUtilLt a b = false → inboxUtilLt b c = false → inboxUtilLt a c = false := by
  intro a b c hab hbc
  simp only [inboxUtilLt, decide_eq_false_iff_not, not_lt] at *
  have hca : (0:Int) < max a.dailyCap 1 := lt_of_lt_of_le one_pos (le_max_right _ _)
  have hcb : (0:Int) < max b.dailyCap 1 := lt_of_lt_of_le one_pos (le_max_right _ _)
  have hcc : (0:Int) < max c.dailyCap 1 := lt_of_lt_of_le one_pos (le_max_right _ _)
  nlinarith [mul_le_mul_of_nonneg_right hab (le_of_lt hcc),
    mul_le_mul_of_nonneg_right hbc (le_of_lt hca)]

theorem inboxUtilLt_asymm :
    ∀ a b, inboxUtilLt a b = true → inboxUtilLt b a = false := by
  intro a b hab
  simp only [inboxUtilLt, decide_eq_true_eq, decide_eq_false_iff_not, not_lt] at *
  exact le_of_lt hab

/-- First minimum of a filtered list: it exists as soon as one element
passes the filter, it passes the filter, and it is minimal among passing
elements. -/
theorem firstMinBy_filter_spec {α : Type} (lt : α → α → Bool) (p : α → Bool)
    (H1 : ∀ a b c, lt a b = true → lt b c = true → lt a c = true)
    (H2 : ∀ a b c, lt a b = false → lt b c = false → lt a c = false)
    (H3 : ∀ a b, lt a b = true → lt b a = false)
    (l : List α) (x : α) (hx : x ∈ l) (hpx : p x = true) :
    ∃ r, firstMinBy lt (l.filter p) = some r ∧ r ∈ l ∧ p r = true ∧
      ∀ y ∈ l, p y = true → lt y r = false := by
  have hne : l.filter p ≠ [] := by
    intro h
    have := List.mem_filter.mpr ⟨hx, hpx⟩
    rw [h] at this
    exact absurd this (List.not_mem_nil x)
  obtain ⟨r, hr⟩ : ∃ r, firstMinBy lt (l.filter p) = some r := by
    cases hfm : firstMinBy lt (l.filter p) with
    | none => exact absurd ((firstMinBy_none_iff lt _).mp hfm) hne
    | some r => exact ⟨r, rfl⟩
  have hmem := firstMinBy_mem lt _ r hr
  rw [List.mem_filter] at hmem
  refine ⟨r, hr, hmem.1, hmem.2, ?_⟩
  intro y hy hpy
  exact firstMinBy_min lt H1 H2 H3 _ r hr y (List.mem_filter.mpr ⟨hy, hpy⟩)

/-- First minimum of a filtered list is `none` exactly when nothing passes. -/
theorem firstMinBy_filter_empty {α : Type} (lt : α → α → Bool) (p : α → Bool)
    (l : List α) (h : ∀ x ∈ l, p x = false) :
    firstMinBy lt (l.filter p) = none := by
  rw [firstMinBy_none_iff]
  rw [List.filter_eq_nil_iff]
  intro a ha
  simp [h a ha]

/-! ## C1 — edge resolution -/

/-- An edge matching `(campaign, step, condition_type, condition_value)`: the
condition type matches exactly, and a supplied condition value matches
case-insensitively for `intent` conditions (exactly otherwise). -/
def edgeMatches (campaignId stepId : Nat) (ct : String) (cv : Option String)
    (e : CampaignEdge) : Bool :=
  e.campaignId == campaignId && e.fromStepId == stepId && e.conditionType == ct &&
  (match cv with
   | some v =>
     if ct = "intent" then iexactOpt e.conditionValue v
     else e.conditionValue == some v
   | none => true)

/-- An `always` edge out of the given step. -/
def isAlwaysEdge (campaignId stepId : Nat) (e : CampaignEdge) : Bool :=
  e.campaignId == campaignId && e.fromStepId == stepId &&
    e.conditionType == "always"

/-- Under the call shapes the state machine uses (non-empty condition type;
the condition value absent or a non-empty string), `_find_edge` is the
`(order, id)`-first matching edge with fallback to the `(order, id)`-first
`always` edge. -/
theorem findEdge_shape (edges : List CampaignEdge) (cid sid : Nat) (ct : String)
    (cv : Option String) (hct : ct ≠ "")
    (hcv : cv = none ∨ ∃ v, cv = some v ∧ v ≠ "") :
    findEdge edges cid sid ct cv =
      match firstMinBy edgeOrdLt (edges.filter (edgeMatches cid sid ct cv)) with
      | some e => some e
      | none =>
        if ct ≠ "always" then
          firstMinBy edgeOrdLt (edges.filter (isAlwaysEdge cid sid))
        else none := by
  have halw : ∀ (l : List CampaignEdge),
      (l.filter (fun e => e.campaignId == cid && e.fromStepId == sid)).filter
        (fun e => e.conditionType == "always") =
      l.filter (isAlwaysEdge cid sid) := by
    intro l
    rw [List.filter_filter]
    apply List.filter_congr
    intro e _
    simp [isAlwaysEdge, Bool.and_comm, Bool.and_assoc, Bool.and_left_comm]
  rcases hcv with hcv | ⟨v, hcv, hv⟩
  · subst hcv
    simp only [findEdge, ne_eq, hct, not_false_eq_true, if_true, halw]
    rw [List.filter_filter]
    have : (fun e => (e.conditionType == ct) &&
        (e.campaignId == cid && e.fromStepId == sid)) =
        edgeMatches cid sid ct none := by
      funext e
      simp [edgeMatches, Bool.and_comm, Bool.and_assoc, Bool.and_left_comm]
    rw [this]
  · subst hcv
    simp only [findEdge, ne_eq, hct, not_false_eq_true, if_true, hv, halw]
    by_cases hi : ct = "intent"
    · simp only [hi, if_true]
      rw [List.filter_filter, List.filter_filter]
      have : (fun (e : CampaignEdge) => iexactOpt e.conditionValue v &&
          e.conditionType == ct && (e.campaignId == cid && e.fromStepId == sid)) =
          edgeMatches cid sid ct (some v) := by
        funext e
        simp [edgeMatches, hi, Bool.and_comm, Bool.and_assoc, Bool.and_left_comm]
      rw [← hi, this]
    · simp only [hi, if_false]
      rw [List.filter_filter, List.filter_filter]
      have : (fun (e : CampaignEdge) => e.conditionValue == some v &&
          e.conditionType == ct && (e.campaignId == cid && e.fromStepId == sid)) =
          edgeMatches cid sid ct (some v) := by
        funext e
        simp [edgeMatches, hi, Bool.and_comm, Bool.and_assoc, Bool.and_left_comm]
      rw [this]

/-- C1: Edge resolution is deterministic (it is a function of the inputs)
and follows the three-tier fallback: the `(order, id)`-first edge matching
the condition type (condition value case-insensitive for `intent`) is
chosen; failing that and when the condition is not `always`, the step's
`(order, id)`-first `always` edge; failing that the state moves to the
next-higher-`sequence` step of the same campaign; and only when that too is
absent does the state become `completed`. -/
theorem edge_resolution_three_tier (env : Env) (db : Db) (campaign : Campaign)
    (step : CampaignStep) (state : LeadCampaignState) (ct : String)
    (cv : Option String) (hct : ct ≠ "")
    (hcv : cv = none ∨ ∃ v, cv = some v ∧ v ≠ "")
    (hstc : state.campaignId = campaign.id) :
    ((∃ e ∈ db.edges, edgeMatches campaign.id step.id ct cv e = true) →
      ∃ e₀ ∈ db.edges,
        findEdge db.edges campaign.id step.id ct cv = some e₀ ∧
        edgeMatches campaign.id step.id ct cv e₀ = true ∧
        (∀ e ∈ db.edges, edgeMatches campaign.id step.id ct cv e = true →
          edgeOrdLt e e₀ = false) ∧
        transitionToEdge env db state (some step) (some e₀) true =
          Except.ok (saveStateNow env db
            { state with currentStepId := some e₀.toStepId, status := "active",
                         nextStepAt := some env.now })) ∧
    ((∀ e ∈ db.edges, edgeMatches campaign.id step.id ct cv e = false) →
      ct ≠ "always" →
      (∃ a ∈ db.edges, isAlwaysEdge campaign.id step.id a = true) →
      ∃ a₀ ∈ db.edges,
        findEdge db.edges campaign.id step.id ct cv = some a₀ ∧
        isAlwaysEdge campaign.id step.id a₀ = true ∧
        (∀ a ∈ db.edges, isAlwaysEdge campaign.id step.id a = true →
          edgeOrdLt a a₀ = false)) ∧
    (findEdge db.edges campaign.id step.id ct cv = none →
      (∃ n ∈ db.steps, n.campaignId = campaign.id ∧ step.sequence < n.sequence) →
      ∃ n₀ ∈ db.steps, n₀.campaignId = campaign.id ∧ step.sequence < n₀.sequence ∧
        (∀ n ∈ db.steps, n.campaignId = campaign.id → step.sequence < n.sequence →
          stepSeqLt n n₀ = false) ∧
        transitionToEdge env db state (some step) none true =
          Except.ok (saveStateNow env db
            { state with currentStepId := some n₀.id, status := "active",
                         nextStepAt := some env.now })) ∧
    (findEdge db.edges campaign.id step.id ct cv = none →
      (∀ n ∈ db.steps, n.campaignId = campaign.id → ¬ step.sequence < n.sequence) →
      transitionToEdge env db state (some step) none true =
        Except.ok (saveStateNow env db
          { state with status := "completed", nextStepAt := none })) := by
  refine ⟨?_, ?_, ?_, ?_⟩
  · -- tier 1
    rintro ⟨e, he, hpe⟩
    obtain ⟨r, hfm, hrmem, hpr, hmin⟩ :=
      firstMinBy_filter_spec edgeOrdLt (edgeMatches campaign.id step.id ct cv)
        edgeOrdLt_trans edgeOrdLt_negtrans edgeOrdLt_asymm db.edges e he hpe
    refine ⟨r, hrmem, ?_, hpr, hmin, rfl⟩
    rw [findEdge_shape db.edges campaign.id step.id ct cv hct hcv, hfm]
  · -- tier 2
    intro hnone hcta ⟨a, ha, hpa⟩
    have hempty := firstMinBy_filter_empty edgeOrdLt
      (edgeMatches campaign.id step.id ct cv) db.edges hnone
    obtain ⟨r, hfm, hrmem, hpr, hmin⟩ :=
      firstMinBy_filter_spec edgeOrdLt (isAlwaysEdge campaign.id step.id)
        edgeOrdLt_trans edgeOrdLt_negtrans edgeOrdLt_asymm db.edges a ha hpa
    refine ⟨r, hrmem, ?_, hpr, hmin⟩
    rw [findEdge_shape db.edges campaign.id step.id ct cv hct hcv, hempty]
    simp [hcta, hfm]
  · -- tier 3
    rintro _ ⟨n, hn, hnc, hns⟩
    have hp : (fun (st : CampaignStep) => st.campaignId == campaign.id &&
        decide (step.sequence < st.sequence)) n = true := by
      simp [hnc, hns]
    obtain ⟨r, hfm, hrmem, hpr, hmin⟩ :=
      firstMinBy_filter_spec stepSeqLt
        (fun st => st.campaignId == campaign.id && decide (step.sequence < st.sequence))
        stepSeqLt_trans stepSeqLt_negtrans stepSeqLt_asymm db.steps n hn hp
    simp only [Bool.and_eq_true, beq_iff_eq, decide_eq_true_eq] at hpr
    refine ⟨r, hrmem, hpr.1, hpr.2, ?_, ?_⟩
    · intro n' hn' hnc' hns'
      exact hmin n' hn' (by simp [hnc', hns'])
    · show (match (none : Option CampaignEdge) with
        | some e =>
          Except.ok (saveStateNow env db
            { state with currentStepId := some e.toStepId, status := "active",
                         nextStepAt := some env.now })
        | none => _) = _
      simp only [transitionToEdge, if_true, hstc]
      rw [hfm]
  · -- tier 4
    intro _ hnone
    have hempty := firstMinBy_filter_empty stepSeqLt
      (fun st => st.campaignId == campaign.id && decide (step.sequence < st.sequence))
      db.steps (by
        intro st hst
        by_cases hc : st.campaignId = campaign.id
        · simp [hc, hnone st hst hc]
        · simp [hc])
    simp only [transitionToEdge, if_true, hstc]
    rw [hempty]

/-! ## Concrete fixtures for witnesses and counterexamples -/

def emptyDb : Db :=
  { leads := [], campaigns := [], steps := [], edges := [], states := [],
    activities := [], messages := [], drafts := [], inboxes := [],
    nextStateId := 1, nextActivityId := 1, nextMessageRowId := 1,
    nextDraftId := 1, uuidSeq := 0 }

/-- A deterministic environment: the draft model answers a fixed body, the
intent model answers `meeting_request`, threads are empty, the mailbox is
empty, transport succeeds, and uuids come from a counter. -/
def mkTestEnv (now : Int) : Env :=
  { now := now,
    llmDraftAnswer := fun _ _ => Except.ok "Hello there",
    llmIntentAnswer := fun _ => Except.ok "meeting_request",
    fetchThreadText := fun _ _ => Except.ok none,
    fetchNewMail := fun _ _ => Except.ok ([], none),
    sendMail := fun _ _ => Except.ok (),
    genMessageId := fun n => "msg-" ++ toString n,
    genTrackingId := fun n => "trk-" ++ toString n }

def plainLead (i : Nat) (mail : String) : Lead :=
  { id := i, email := some mail, workEmail := none, optedOut := false,
    optedOutAt := none, points := 0, lastActivityAt := none,
    lastActivityType := none, country := none, industries := none,
    departments := none, seniority := none, jobTitle := none,
    companyName := none }

def plainState (i leadId campaignId : Nat) (status : String)
    (curStep : Option Nat) (nextAt : Option Int) : LeadCampaignState :=
  { id := i, leadId := leadId, campaignId := campaignId, status := status,
    currentStepId := curStep, assignedInboxId := none, nextStepAt := nextAt,
    lastSentAt := none, threadId := none, lastMessageId := none,
    createdAt := 0, updatedAt := 0 }

def C1campaign : Campaign := { id := 1, status := "launched", audienceSize := none }

def C1step : CampaignStep :=
  { id := 1, campaignId := 1, stepType := "condition", sequence := 1, config := none }

def C1state : LeadCampaignState := plainState 1 1 1 "active" (some 1) none

def C1edge (i : Nat) (ord : Int) (ct : String) (toS : Nat) : CampaignEdge :=
  { id := i, campaignId := 1, fromStepId := 1, toStepId := toS,
    conditionType := ct, conditionValue := none, order := ord }

def C1db : Db :=
  { emptyDb with
    campaigns := [C1campaign],
    steps := [C1step],
    edges := [C1edge 1 1 "always" 2, C1edge 2 2 "reply" 3, C1edge 3 1 "reply" 4] }

/-- C1 witness: on a concrete edge set with two `reply` edges and one
`always` edge, tier 1 applies and resolution picks the `(order, id)`-least
`reply` edge. -/
theorem edge_resolution_three_tier_witness :
    (∃ e ∈ C1db.edges, edgeMatches 1 1 "reply" none e = true) ∧
    (∃ e₀ ∈ C1db.edges,
      findEdge C1db.edges 1 1 "reply" none = some e₀ ∧
      edgeMatches 1 1 "reply" none e₀ = true ∧
      (∀ e ∈ C1db.edges, edgeMatches 1 1 "reply" none e = true →
        edgeOrdLt e e₀ = false) ∧
      transitionToEdge (mkTestEnv 0) C1db C1state (some C1step) (some e₀) true =
        Except.ok (saveStateNow (mkTestEnv 0) C1db
          { C1state with currentStepId := some e₀.toStepId, status := "active",
                         nextStepAt := some (mkTestEnv 0).now })) := by
  have h : ∃ e ∈ C1db.edges, edgeMatches 1 1 "reply" none e = true := by decide
  exact ⟨h,
    (edge_resolution_three_tier (mkTestEnv 0) C1db C1campaign C1step C1state
      "reply" none (by decide) (Or.inl rfl) (by decide)).1 h⟩

/-! ## C8 — intent classification -/

def defaultIntentLabels : List String :=
  ["meeting_request", "question", "negative", "no_interest"]

/-- C8: a text matching the unsubscribe regex classifies as `unsubscribe`
irrespective of the model (the oracle is never consulted, so its answer —
even its failure — cannot change the result); otherwise the model's answer
is constrained to the configured labels (else the fixed default set) and
any answer outside the allowed set yields `other`. -/
theorem classify_intent_spec (env : Env) (t : String)
    (labels : Option (List String)) :
    (unsubRegexSearch t = true →
      classifyReplyIntent env t labels = Except.ok "unsubscribe") ∧
    (unsubRegexSearch t = false →
      ∀ raw, env.llmIntentAnswer t = Except.ok raw →
        (∀ ls, labels = some ls → ls ≠ [] →
          (lowerStr (trimStr raw) ∈ ls →
            classifyReplyIntent env t labels = Except.ok (lowerStr (trimStr raw))) ∧
          (lowerStr (trimStr raw) ∉ ls →
            classifyReplyIntent env t labels = Except.ok "other")) ∧
        ((labels = none ∨ labels = some []) →
          (lowerStr (trimStr raw) ∈ defaultIntentLabels →
            classifyReplyIntent env t labels = Except.ok (lowerStr (trimStr raw))) ∧
          (lowerStr (trimStr raw) ∉ defaultIntentLabels →
            classifyReplyIntent env t labels = Except.ok "other"))) := by
  constructor
  · intro hm
    simp [classifyReplyIntent, hm]
  · intro hm raw hraw
    constructor
    · intro ls hls hne
      subst hls
      constructor
      · intro hmem
        simp [classifyReplyIntent, hm, hraw, pyLabelPost, hne, hmem,
          List.isEmpty_iff]
      · intro hmem
        simp [classifyReplyIntent, hm, hraw, pyLabelPost, hne, hmem,
          List.isEmpty_iff]
    · intro hdef
      rcases hdef with hdef | hdef <;> subst hdef
      · constructor
        · intro hmem
          have : lowerStr (trimStr raw) = "meeting_request" ∨ lowerStr (trimStr raw) = "question" ∨
              lowerStr (trimStr raw) = "negative" ∨ lowerStr (trimStr raw) = "no_interest" := by
            simpa [defaultIntentLabels] using hmem
          simp [classifyReplyIntent, hm, hraw, pyLabelPost, this]
        · intro hmem
          have : ¬ (lowerStr (trimStr raw) = "meeting_request" ∨ lowerStr (trimStr raw) = "question" ∨
              lowerStr (trimStr raw) = "negative" ∨ lowerStr (trimStr raw) = "no_interest") := by
            simpa [defaultIntentLabels] using hmem
          simp [classifyReplyIntent, hm, hraw, pyLabelPost, this]
      · constructor
        · intro hmem
          have : lowerStr (trimStr raw) = "meeting_request" ∨ lowerStr (trimStr raw) = "question" ∨
              lowerStr (trimStr raw) = "negative" ∨ lowerStr (trimStr raw) = "no_interest" := by
            simpa [defaultIntentLabels] using hmem
          simp [classifyReplyIntent, hm, hraw, pyLabelPost, this]
        · intro hmem
          have : ¬ (lowerStr (trimStr raw) = "meeting_request" ∨ lowerStr (trimStr raw) = "question" ∨
              lowerStr (trimStr raw) = "negative" ∨ lowerStr (trimStr raw) = "no_interest") := by
            simpa [defaultIntentLabels] using hmem
          simp [classifyReplyIntent, hm, hraw, pyLabelPost, this]

/-- C8 witness: a body containing "please unsubscribe" classifies as
`unsubscribe` although the stubbed model (of `mkTestEnv`) would answer
`meeting_request`, and a model answer outside the configured label set
yields `other`. -/
theorem classify_intent_spec_witness :
    unsubRegexSearch "please unsubscribe" = true ∧
    classifyReplyIntent (mkTestEnv 0) "please unsubscribe"
      (some ["meeting_request"]) = Except.ok "unsubscribe" ∧
    classifyReplyIntent (mkTestEnv 0) "interesting text"
      (some ["pricing"]) = Except.ok "other" := by
  have h1 : unsubRegexSearch "please unsubscribe" = true := by decide
  have h2 : unsubRegexSearch "interesting text" = false := by decide
  refine ⟨h1,
    (classify_intent_spec (mkTestEnv 0) "please unsubscribe"
      (some ["meeting_request"])).1 h1, ?_⟩
  have := (((classify_intent_spec (mkTestEnv 0) "interesting text"
    (some ["pricing"])).2 h2 "meeting_request" rfl).1 ["pricing"] rfl
    (by decide)).2 (by decide)
  exact this

/-! ## C6 — inbox allocation -/

deriving instance DecidableEq for Except

theorem resetInbox_active (now : Int) (i : OutboundInbox) :
    (resetInboxDailySent now i).active = i.active := by
  unfold resetInboxDailySent
  split
  · split <;> rfl
  · rfl

/-- C6 (amended): the allocator never returns an inactive or at-cap inbox,
resets are recognised at most once per day (resetting twice with the same
clock is the same as once), the chosen inbox has minimal utilization among
the available ones — with ties broken by the position in the fetch order
(ascending pre-reset `(daily_sent, id)`), not by post-reset `daily_sent` —
and allocation fails with the capacity errors when no inbox is active or
all are at cap. -/
theorem inbox_allocation_spec (now : Int) (inboxes : List OutboundInbox) :
    (∀ chosen, (selectInboxForLead now inboxes).1 = Except.ok chosen →
      chosen.active = true ∧ chosen.dailySent < chosen.dailyCap ∧
      (∀ x ∈ availableOf now inboxes, inboxUtilLt x chosen = false) ∧
      ∃ l₁ l₂, availableOf now inboxes = l₁ ++ chosen :: l₂ ∧
        (∀ x ∈ l₁, inboxUtilLt chosen x = true) ∧
        (∀ x ∈ l₂, inboxUtilLt x chosen = false)) ∧
    (∀ i, resetInboxDailySent now (resetInboxDailySent now i) =
      resetInboxDailySent now i) ∧
    ((inboxes.filter (fun i => i.active)).isEmpty = true →
      (selectInboxForLead now inboxes).1 =
        Except.error "No active outbound inboxes configured") ∧
    ((inboxes.filter (fun i => i.active)).isEmpty = false →
      availableOf now inboxes = [] →
      (selectInboxForLead now inboxes).1 =
        Except.error "All outbound inboxes are at their daily cap") := by
  refine ⟨?_, ?_, ?_, ?_⟩
  · intro chosen h
    unfold selectInboxForLead at h
    by_cases hemp : (inboxes.filter (fun i => i.active)).isEmpty
    · simp [hemp] at h
    · simp only [hemp, Bool.false_eq_true, if_false] at h
      cases hfm : firstMinBy inboxUtilLt (availableOf now inboxes) with
      | none => rw [hfm] at h; exact absurd h (by simp)
      | some m =>
        rw [hfm] at h
        simp only [Except.ok.injEq] at h
        subst h
        have hmem := firstMinBy_mem inboxUtilLt _ _ hfm
        have hmem' := hmem
        unfold availableOf at hmem'
        rw [List.mem_filter] at hmem'
        obtain ⟨hra, hcap⟩ := hmem'
        have hactive : m.active = true := by
          unfold resetActivesOf at hra
          rw [List.mem_map] at hra
          obtain ⟨pre, hpre, hquo⟩ := hra
          have : pre ∈ inboxes.filter (fun i => i.active) :=
            (List.perm_insertionSort inboxFetchLe _).subset hpre
          rw [List.mem_filter] at this
          rw [← hquo, resetInbox_active]
          exact this.2
        refine ⟨hactive, by simpa using hcap, ?_, ?_⟩
        · exact firstMinBy_min inboxUtilLt inboxUtilLt_trans inboxUtilLt_negtrans
            inboxUtilLt_asymm _ _ hfm
        · obtain ⟨l₁, l₂, hsp, hp, hs⟩ := firstMinBy_split inboxUtilLt
            inboxUtilLt_trans inboxUtilLt_negtrans _ _ hfm
          exact ⟨l₁, l₂, hsp, hp, hs⟩
  · intro i
    cases hl : i.lastResetAt with
    | none => simp [resetInboxDailySent, hl]
    | some t =>
      by_cases hd : utcDay t = utcDay now
      · simp [resetInboxDailySent, hl, hd]
      · simp [resetInboxDailySent, hl, hd]
  · intro hemp
    unfold selectInboxForLead
    simp [hemp]
  · intro hemp hav
    unfold selectInboxForLead
    simp only [hemp, Bool.false_eq_true, if_false]
    rw [hav]
    simp [firstMinBy]

/-- Fixtures for C6: inbox 1 is stale from yesterday (daily_sent 5 before
the lazy reset), inbox 2 was already reset today (daily_sent 0). -/
def c6A : OutboundInbox :=
  { id := 1, emailAddress := "a@x.io", dailyCap := 10, dailySent := 5,
    lastResetAt := some 10000, active := true, imapHost := none,
    imapUsername := none, imapPassword := none, imapLastUid := none,
    imapLastCheckedAt := none }

def c6B : OutboundInbox :=
  { id := 2, emailAddress := "b@x.io", dailyCap := 10, dailySent := 0,
    lastResetAt := some 90000, active := true, imapHost := none,
    imapUsername := none, imapPassword := none, imapLastUid := none,
    imapLastCheckedAt := none }

/-- C6 counterexample: after the lazy reset both inboxes have daily_sent 0,
daily_cap 10 and equal utilization, so the claimed tie-break (lowest
daily_sent, then lowest id) would pick inbox 1 — but the code returns inbox
2, because Python's `min` ties resolve by the pre-reset fetch order `(5, 1)`
vs `(0, 2)`. -/
theorem inbox_allocation_tiebreak_counterexample :
    ((selectInboxForLead 100000 [c6A, c6B]).1.map (fun i => i.id)) = Except.ok 2 ∧
    (availableOf 100000 [c6A, c6B]).map (fun i => (i.id, i.dailySent, i.dailyCap)) =
      [(2, 0, 10), (1, 0, 10)] ∧
    inboxUtilEq (resetInboxDailySent 100000 c6A) c6B ∧
    (resetInboxDailySent 100000 c6A).id < c6B.id := by
  refine ⟨?_, ?_, ?_, ?_⟩ <;> decide

/-- C6 witness: the amended specification applied to the concrete pair. -/
theorem inbox_allocation_spec_witness :
    (selectInboxForLead 100000 [c6A, c6B]).1 = Except.ok c6B ∧
    c6B.active = true ∧ c6B.dailySent < c6B.dailyCap ∧
    (∀ x ∈ availableOf 100000 [c6A, c6B], inboxUtilLt x c6B = false) := by
  have h : (selectInboxForLead 100000 [c6A, c6B]).1 = Except.ok c6B := by decide
  have spec := (inbox_allocation_spec 100000 [c6A, c6B]).1 c6B h
  exact ⟨h, spec.1, spec.2.1, spec.2.2.1⟩

/-! ## Small frame lemmas for the row stores -/

theorem recordActivity_inboxes (env : Env) (db : Db) (lid : Nat)
    (cid iid : Option Nat) (t : String) :
    (recordActivity env db lid cid iid t).inboxes = db.inboxes := by
  unfold recordActivity
  dsimp only
  split <;> rfl

theorem awardPoints_inboxes (env : Env) (db : Db) (lid : Nat)
    (cid iid : Option Nat) (p : Int) :
    (awardPoints env db lid cid iid p).inboxes = db.inboxes := by
  unfold awardPoints
  dsimp only
  split
  · rfl
  · split <;> rfl

theorem saveStateRow_inboxes (db : Db) (s : LeadCampaignState) :
    (saveStateRow db s).inboxes = db.inboxes := rfl

theorem saveDraftRow_inboxes (db : Db) (d : CampaignEmailDraft) :
    (saveDraftRow db d).inboxes = db.inboxes := rfl

/-- Replacing the row with the looked-up key makes the subsequent lookup
return the replacement. -/
theorem find?_map_update {α : Type} (key : α → Nat) (k : Nat) (new : α)
    (hnew : key new = k) :
    ∀ (l : List α) (old : α), l.find? (fun t => key t == k) = some old →
      (l.map (fun t => if key t = k then new else t)).find?
        (fun t => key t == k) = some new := by
  intro l
  induction l with
  | nil => intro old h; simp at h
  | cons x xs ih =>
    intro old h
    by_cases hx : key x = k
    · simp [List.find?_cons, hx, hnew]
    · rw [List.find?_cons_of_neg _ (by simp [hx])] at h
      simp only [List.map_cons]
      rw [if_neg hx, List.find?_cons_of_neg _ (by simp [hx])]
      exact ih old h

/-! ## C5 — the daily cap at send time -/

def c5inbox : OutboundInbox :=
  { id := 1, emailAddress := "out@x.io", dailyCap := 5, dailySent := 5,
    lastResetAt := some 90000, active := true, imapHost := none,
    imapUsername := none, imapPassword := none, imapLastUid := none,
    imapLastCheckedAt := none }

def c5priorMsg : OutboundMessage :=
  { id := 1, leadId := 1, campaignId := some 1, inboxId := some 1,
    stepId := some 1, direction := "outbound", messageId := "m0",
    threadId := some "m0", subject := some "Intro", inReplyTo := none,
    references := none, sentAt := some 10, status := "sent",
    recipientEmail := some "lead@x.io", trackingId := some "t0" }

def c5draft : CampaignEmailDraft :=
  { id := 1, campaignId := 1, leadId := 1, inboxId := some 1,
    stepId := some 1, subject := some "Intro", bodyText := "Hi",
    status := "pending", fromEmail := some "out@x.io",
    toEmail := some "lead@x.io", approvedById := none, approvedAt := none,
    sentAt := none, createdAt := 50 }

def c5db : Db :=
  { emptyDb with
    leads := [plainLead 1 "lead@x.io"],
    campaigns := [C1campaign],
    steps := [{ id := 1, campaignId := 1, stepType := "ai_email", sequence := 1,
                config := none }],
    messages := [c5priorMsg],
    drafts := [c5draft],
    inboxes := [c5inbox],
    nextMessageRowId := 2, nextDraftId := 2, nextStateId := 1 }

/-- C5 counterexample: the draft's inbox starts at the cap
(daily_sent = daily_cap = 5, so the claimed precondition daily_sent ≤
daily_cap holds), yet `send_draft_email` transmits without any cap check
and leaves daily_sent = 6 > 5. -/
theorem send_cap_counterexample :
    c5inbox.dailySent ≤ c5inbox.dailyCap ∧
    (sendDraftEmail (mkTestEnv 100) c5db 1 none).map
      (fun p => (inboxById p.1 1).map (fun i => (i.dailySent, i.dailyCap))) =
      Except.ok (some (6, 5)) := by
  exact ⟨by decide, by decide⟩

/-- C5 (amended): a successful `send_draft_email` increments the draft's
inbox daily_sent by exactly one, so when daily_sent < daily_cap held before
the send, daily_sent ≤ daily_cap still holds afterwards. -/
theorem send_increments_under_cap (env : Env) (db : Db) (draftId : Nat)
    (userId : Option Nat) (db' : Db) (msg : OutboundMessage)
    (draft : CampaignEmailDraft) (iid : Nat) (inbox : OutboundInbox)
    (hsend : sendDraftEmail env db draftId userId = Except.ok (db', msg))
    (hdraft : draftById db draftId = some draft)
    (hiid : draft.inboxId = some iid)
    (hinbox : inboxById db iid = some inbox)
    (hcap : inbox.dailySent < inbox.dailyCap) :
    inboxById db' iid = some { inbox with dailySent := inbox.dailySent + 1 } ∧
    ∀ i', inboxById db' iid = some i' →
      i'.dailySent = inbox.dailySent + 1 ∧ i'.dailyCap = inbox.dailyCap ∧
      i'.dailySent ≤ i'.dailyCap := by
  have hid : inbox.id = iid := by
    have := List.find?_some hinbox
    simpa using this
  subst hid
  have hfind : db.inboxes.find? (fun i => i.id == inbox.id) = some inbox := hinbox
  unfold sendDraftEmail at hsend
  rw [hdraft] at hsend
  dsimp only at hsend
  rw [hiid] at hsend
  dsimp only [Option.some_bind] at hsend
  rw [hinbox] at hsend
  dsimp only at hsend
  have hmain : inboxById db' inbox.id =
      some { inbox with dailySent := inbox.dailySent + 1 } := by
    repeat' split at hsend
    all_goals
      first
      | exact Except.noConfusion hsend
      | (simp only [Except.ok.injEq, Prod.mk.injEq] at hsend
         obtain ⟨hdb, -⟩ := hsend
         subst hdb
         simp only [inboxById, recordActivity_inboxes, saveStateNow,
           saveStateRow_inboxes, saveDraftRow_inboxes, saveInboxRow]
         exact find?_map_update (fun i => i.id) inbox.id
           { inbox with dailySent := inbox.dailySent + 1 } rfl
           db.inboxes inbox hfind)
  refine ⟨hmain, ?_⟩
  intro i' hi'
  rw [hmain] at hi'
  simp only [Option.some.injEq] at hi'
  subst hi'
  exact ⟨rfl, rfl, by simpa using hcap⟩

/-- The C5 database with the inbox one short of the cap. -/
def c5db4 : Db := { c5db with inboxes := [{ c5inbox with dailySent := 4 }] }

/-- C5 witness: with daily_sent 4 of cap 5 before approval, the send leaves
daily_sent 5 ≤ 5. -/
theorem send_increments_under_cap_witness :
    (4 : Int) < 5 ∧
    ∃ db' msg, sendDraftEmail (mkTestEnv 100) c5db4 1 none = Except.ok (db', msg) ∧
      inboxById db' 1 = some { c5inbox with dailySent := 5 } := by
  refine ⟨by decide, ?_⟩
  cases hs : sendDraftEmail (mkTestEnv 100) c5db4 1 none with
  | error e =>
    have hproj : (sendDraftEmail (mkTestEnv 100) c5db4 1 none).map
        (fun p => p.2.direction) = Except.ok "outbound" := by decide
    rw [hs] at hproj
    exact Except.noConfusion hproj
  | ok p =>
    have hs' : sendDraftEmail (mkTestEnv 100) c5db4 1 none =
        Except.ok (p.1, p.2) := by rw [hs]
    have h5 := (send_increments_under_cap (mkTestEnv 100) c5db4 1 none p.1 p.2
      c5draft 1 { c5inbox with dailySent := 4 } hs' (by decide) (by decide)
      (by decide) (by decide)).1
    refine ⟨p.1, p.2, rfl, ?_⟩
    rw [h5]
    decide

/-! ## C7 — the approval gate -/

def c7state : LeadCampaignState := plainState 1 1 1 "waiting_approval" (some 1) none

/-- The C5 database without any prior outbound message and with the lead's
state frozen at `waiting_approval` — exactly the situation after the first
`ai_email` draft of a freshly enrolled lead (enrollment only selects leads
that were never contacted). -/
def c7db : Db := { c5db with messages := [], states := [c7state], nextMessageRowId := 1 }

/-- C7: approving a pending draft for a (lead, campaign) pair with no prior
outbound message — the normal first-touch case — raises `AttributeError`
(`send_draft_email` reads `last_message.references` unconditionally before
sending).  Nothing is sent and nothing is recorded: the draft stays
pending, no OutboundMessage row is created, and the inbox counter, the
lead-campaign state, the lead and the activity log are unchanged (only the
uuid draw for the tracking id happened). -/
theorem approve_first_draft_crashes :
    c7db.messages = [] ∧
    decideCampaignDraft (mkTestEnv 100) c7db 1 "approved" none =
      Except.error ("AttributeError: NoneType object has no attribute references",
        { c7db with uuidSeq := 1 }) ∧
    ({ c7db with uuidSeq := 1 } : Db).drafts = c7db.drafts ∧
    ({ c7db with uuidSeq := 1 } : Db).messages = c7db.messages ∧
    ({ c7db with uuidSeq := 1 } : Db).states = c7db.states ∧
    ({ c7db with uuidSeq := 1 } : Db).inboxes = c7db.inboxes ∧
    (draftById c7db 1).map (fun d => d.status) = some "pending" := by
  refine ⟨rfl, by decide, rfl, rfl, rfl, rfl, by decide⟩

/-! ## C4 — reply-ingestion idempotency -/

def c4inbox : OutboundInbox :=
  { id := 1, emailAddress := "sales@x.io", dailyCap := 100, dailySent := 0,
    lastResetAt := some 90000, active := true, imapHost := some "imap.x.io",
    imapUsername := some "u", imapPassword := some "p", imapLastUid := none,
    imapLastCheckedAt := none }

def c4msg : InboundMsg :=
  { uid := 7, fromAddr := "lead@x.io", toAddr := "sales@x.io",
    subject := "Re: Intro", messageId := "<m1>", inReplyTo := "",
    references := "", date := 123, body := "sounds interesting" }

/-- The mailbox oracle keeps returning the same message: the replay after a
crash before `imap_last_uid` was persisted. -/
def c4env : Env :=
  { mkTestEnv 200 with fetchNewMail := fun _ _ => Except.ok ([c4msg], some 7) }

def c4db : Db :=
  { emptyDb with
    leads := [plainLead 1 "lead@x.io"],
    campaigns := [C1campaign],
    inboxes := [c4inbox] }

/-- C4: replaying the same inbound message through two consecutive
`process_reply_events` runs leaves exactly one OutboundMessage row (the
`get_or_create` dedup holds) but records the `email_reply` LeadActivity
twice and credits the +5 reply points twice — the activity logging is not
gated on the row being new. -/
theorem reply_replay_duplicates_activity :
    (processReplyEvents c4env c4db 1).map (fun p =>
      (processReplyEvents c4env p.1 1).map (fun q =>
        ((q.1.messages.filter (fun m => m.messageId == "<m1>")).length,
         (q.1.activities.filter (fun a => a.activityType == "email_reply")).length,
         (leadById q.1 1).map (fun l => l.points)))) =
      Except.ok (Except.ok (1, 2, some 10)) := by
  decide

/-! ## C10 — the no-mutation guard of reply ingestion -/

/-- A fetched message that `process_reply_events` skips: missing From, the
inbox's own address (case-insensitively), or no matching lead. -/
def replySkips (db : Db) (inbox : OutboundInbox) (m : InboundMsg) : Prop :=
  m.fromAddr = "" ∨ lowerStr m.fromAddr = lowerStr inbox.emailAddress ∨
    ∀ l ∈ db.leads, l.workEmail ≠ some m.fromAddr ∧ l.email ≠ some m.fromAddr

theorem processReplyMsg_skip (env : Env) (db : Db) (inbox : OutboundInbox)
    (m : InboundMsg) (h : replySkips db inbox m) :
    processReplyMsg env db inbox m = (db, false) := by
  unfold processReplyMsg
  by_cases hc : (decide (m.fromAddr = "") ||
      lowerStr m.fromAddr == lowerStr inbox.emailAddress) = true
  · simp only [hc, if_true]
  · rw [if_neg (by simpa using hc)]
    have hfind : db.leads.find?
        (fun l => l.workEmail == some m.fromAddr || l.email == some m.fromAddr) =
        none := by
      rcases h with h | h | h
      · exact absurd (by simp [h]) hc
      · exact absurd (by simp [h]) hc
      · rw [List.find?_eq_none]
        intro l hl
        have hll := h l hl
        simp [hll.1, hll.2]
    rw [hfind]

/-- If every fetched message is skipped, the message fold is inert. -/
theorem replyFold_skip (env : Env) (inbox : OutboundInbox) :
    ∀ (msgs : List InboundMsg) (db : Db),
      (∀ m ∈ msgs, replySkips db inbox m) →
      msgs.foldl
        (fun (acc : Db × Nat) m =>
          let r := processReplyMsg env acc.1 inbox m
          (r.1, acc.2 + (if r.2 then 1 else 0)))
        (db, 0) = (db, 0) := by
  intro msgs
  induction msgs with
  | nil => intro db _; rfl
  | cons m rest ih =>
    intro db h
    rw [List.foldl_cons]
    rw [show (let r := processReplyMsg env db inbox m
        ((r.1, 0 + (if r.2 then 1 else 0)) : Db × Nat)) = (db, 0) by
      rw [processReplyMsg_skip env db inbox m (h m (List.mem_cons_self m rest))]
      rfl]
    exact ih db (fun m' hm' => h m' (List.mem_cons_of_mem m hm'))

/-- C10: for a fetched batch in which every message has a missing From
address, the inbox's own From address, or a From matching no lead,
`process_reply_events` creates no OutboundMessage and no LeadActivity,
changes no state, lead or draft, counts no reply, and touches at most the
polled inbox's `imap_last_uid` / `imap_last_checked_at` fields. -/
theorem reply_skip_frame (env : Env) (db : Db) (inboxId : Nat)
    (inbox : OutboundInbox) (msgs : List InboundMsg) (newestUid : Option Nat)
    (hinbox : inboxById db inboxId = some inbox)
    (hfetch : env.fetchNewMail inbox.id inbox.imapLastUid =
      Except.ok (msgs, newestUid))
    (hskip : ∀ m ∈ msgs, replySkips db inbox m) :
    ∃ db', processReplyEvents env db inboxId = Except.ok (db', 0) ∧
      db'.messages = db.messages ∧ db'.activities = db.activities ∧
      db'.states = db.states ∧ db'.leads = db.leads ∧
      db'.drafts = db.drafts ∧
      ∀ x ∈ db'.inboxes, x ∈ db.inboxes ∨
        (x.id = inbox.id ∧
          x = { inbox with imapLastUid := x.imapLastUid,
                           imapLastCheckedAt := x.imapLastCheckedAt }) := by
  unfold processReplyEvents
  rw [hinbox]
  dsimp only
  by_cases hcred : (optStrTruthy inbox.imapHost && optStrTruthy inbox.imapUsername &&
      optStrTruthy inbox.imapPassword) = true
  · rw [if_neg (by simp [hcred])]
    rw [hfetch]
    dsimp only
    rw [replyFold_skip env inbox msgs db hskip]
    cases newestUid with
    | none =>
      exact ⟨db, rfl, rfl, rfl, rfl, rfl, rfl, fun x hx => Or.inl hx⟩
    | some u =>
      dsimp only
      by_cases hsame : (inbox.imapLastUid == some u) = true
      · rw [if_pos hsame]
        exact ⟨db, rfl, rfl, rfl, rfl, rfl, rfl, fun x hx => Or.inl hx⟩
      · rw [if_neg (by simpa using hsame)]
        refine ⟨_, rfl, rfl, rfl, rfl, rfl, rfl, ?_⟩
        intro x hx
        simp only [saveInboxRow, List.mem_map] at hx
        obtain ⟨y, hy, hxy⟩ := hx
        by_cases hyid : y.id = inbox.id
        · rw [if_pos hyid] at hxy
          subst hxy
          exact Or.inr ⟨rfl, rfl⟩
        · rw [if_neg hyid] at hxy
          subst hxy
          exact Or.inl hy
  · have hc' : (optStrTruthy inbox.imapHost && optStrTruthy inbox.imapUsername &&
        optStrTruthy inbox.imapPassword) = false := Bool.eq_false_iff.mpr hcred
    rw [if_pos (by simp [hc'])]
    exact ⟨db, rfl, rfl, rfl, rfl, rfl, rfl, fun x hx => Or.inl hx⟩

def c10env : Env :=
  { mkTestEnv 300 with
    fetchNewMail := fun _ _ =>
      Except.ok ([{ uid := 9, fromAddr := "stranger@y.io", toAddr := "sales@x.io",
                    subject := "hi", messageId := "<s1>", inReplyTo := "",
                    references := "", date := 5, body := "hello" }], some 9) }

/-- C10 witness: one fetched message from an address matching no lead — the
call returns zero replies and only the high-water mark may move. -/
theorem reply_skip_frame_witness :
    ∃ db', processReplyEvents c10env c4db 1 = Except.ok (db', 0) ∧
      db'.messages = c4db.messages ∧ db'.activities = c4db.activities ∧
      db'.states = c4db.states ∧ db'.leads = c4db.leads ∧
      db'.drafts = c4db.drafts ∧
      ∀ x ∈ db'.inboxes, x ∈ c4db.inboxes ∨
        (x.id = c4inbox.id ∧
          x = { c4inbox with imapLastUid := x.imapLastUid,
                             imapLastCheckedAt := x.imapLastCheckedAt }) := by
  exact reply_skip_frame c10env c4db 1 c4inbox _ (some 9) (by decide) rfl
    (by intro m hm
        rcases List.mem_singleton.mp hm with rfl
        exact Or.inr (Or.inr (by decide)))

/-! ## C9 — the delay scenario -/

/-- Database after one full tick at the given clock (on an error the
database as committed so far). -/
def tickDbOf (now : Int) (db : Db) : Db :=
  match runCampaignTick (mkTestEnv now) db none with
  | Except.ok p => p.1
  | Except.error e => e.2

/-- Whether a full tick at the given clock succeeds. -/
def tickOk (now : Int) (db : Db) : Bool :=
  match runCampaignTick (mkTestEnv now) db none with
  | Except.ok _ => true
  | Except.error _ => false

def c9campaign : Campaign := { id := 1, status := "launched", audienceSize := none }

def c9entry : CampaignStep :=
  { id := 1, campaignId := 1, stepType := "entry", sequence := 1, config := none }

def c9delay : CampaignStep :=
  { id := 2, campaignId := 1, stepType := "delay", sequence := 2,
    config := some { durationHours := some 48 } }

def c9email : CampaignStep :=
  { id := 3, campaignId := 1, stepType := "ai_email", sequence := 3, config := none }

def c9edge (i : Nat) (fromS toS : Nat) : CampaignEdge :=
  { id := i, campaignId := 1, fromStepId := fromS, toStepId := toS,
    conditionType := "always", conditionValue := none, order := 0 }

def c9inbox : OutboundInbox :=
  { id := 1, emailAddress := "rep@corp.io", dailyCap := 100, dailySent := 0,
    lastResetAt := some 0, active := false, imapHost := none,
    imapUsername := none, imapPassword := none, imapLastUid := none,
    imapLastCheckedAt := none }

def c9state : LeadCampaignState :=
  { id := 1, leadId := 1, campaignId := 1, status := "active",
    currentStepId := some 1, assignedInboxId := some 1, nextStepAt := some 0,
    lastSentAt := none, threadId := none, lastMessageId := none,
    createdAt := 0, updatedAt := 0 }

/-- The scenario database: campaign [entry]→(always)→[delay 48h]→(always)→
[ai_email], one enrolled lead at `active`/entry with an assigned inbox. -/
def c9db : Db :=
  { emptyDb with
    leads := [plainLead 1 "ada@lead.io"],
    campaigns := [c9campaign],
    steps := [c9entry, c9delay, c9email],
    edges := [c9edge 1 1 2, c9edge 2 2 3],
    states := [c9state],
    inboxes := [c9inbox],
    nextStateId := 2 }

def c9db1 : Db := tickDbOf 1000 c9db

def c9db2 : Db := tickDbOf 2000 c9db1

def c9db3 : Db := tickDbOf 100000 c9db2

def c9db4 : Db := tickDbOf 200000 c9db2

def c9db5 : Db := tickDbOf 201000 c9db4

/-- C9 counterexample: a single successful tick from `active` at the entry
step advances the state only onto the delay step, with status still
`active` — not `waiting_delay` as claimed (each tick performs one
transition per state, so the `waiting_delay` switch happens a tick later). -/
theorem delay_one_tick_counterexample :
    tickOk 1000 c9db = true ∧
    c9db1.states.map (fun s => (s.status, s.currentStepId)) = [("active", some 2)] ∧
    ∀ s ∈ c9db1.states, s.status ≠ "waiting_delay" := by
  decide

/-- C9 (amended): the delay scenario plays out one transition per tick.
Tick 1 moves entry→delay with status `active`; tick 2 switches to
`waiting_delay` with `next_step_at = now + 48h`; a tick before expiry
changes nothing at all; a tick after expiry moves onto the ai_email step
with status `active`; and the following tick produces the pending
`CampaignEmailDraft` and leaves the state `waiting_approval`. -/
theorem delay_scenario_multi_tick :
    tickOk 1000 c9db = true ∧
    c9db1.states.map (fun s => (s.status, s.currentStepId, s.nextStepAt)) =
      [("active", some 2, some 1000)] ∧
    tickOk 2000 c9db1 = true ∧
    c9db2.states.map (fun s => (s.status, s.currentStepId, s.nextStepAt)) =
      [("waiting_delay", some 2, some (2000 + 3600 * 48))] ∧
    tickOk 100000 c9db2 = true ∧
    (100000 : Int) < 2000 + 3600 * 48 ∧
    c9db3 = c9db2 ∧
    tickOk 200000 c9db2 = true ∧
    (2000 + 3600 * 48 : Int) < 200000 ∧
    c9db4.states.map (fun s => (s.status, s.currentStepId, s.nextStepAt)) =
      [("active", some 3, some 200000)] ∧
    tickOk 201000 c9db4 = true ∧
    c9db5.states.map (fun s => (s.status, s.currentStepId)) =
      [("waiting_approval", some 3)] ∧
    c9db5.drafts.map (fun d => (d.status, d.leadId, d.campaignId, d.stepId, d.inboxId)) =
      [("pending", 1, 1, some 3, some 1)] :=
  ⟨by decide, by decide, by decide, by decide, by decide, by decide, by decide,
   by decide, by decide, by decide, by decide, by decide, by decide⟩

/-! ## C3 — failure isolation across leads -/

def c3campaign : Campaign := { id := 1, status := "launched", audienceSize := none }

def c3step : CampaignStep :=
  { id := 1, campaignId := 1, stepType := "ai_email", sequence := 1, config := none }

def c3inbox : OutboundInbox :=
  { id := 1, emailAddress := "rep@corp.io", dailyCap := 100, dailySent := 0,
    lastResetAt := some 0, active := false, imapHost := none,
    imapUsername := none, imapPassword := none, imapLastUid := none,
    imapLastCheckedAt := none }

/-- Lead 1 has no email address at all, so drafting for it raises. -/
def c3lead1 : Lead := { plainLead 1 "unused" with email := none }

def c3state1 : LeadCampaignState :=
  { plainState 1 1 1 "active" (some 1) (some 0) with assignedInboxId := some 1 }

def c3state2 : LeadCampaignState :=
  { plainState 2 2 1 "active" (some 1) (some 10) with assignedInboxId := some 1 }

/-- Two due states in one campaign: lead 1 (no email, raises while
drafting) is processed before lead 2 (fine). -/
def c3db : Db :=
  { emptyDb with
    leads := [c3lead1, plainLead 2 "bea@lead.io"],
    campaigns := [c3campaign],
    steps := [c3step],
    states := [c3state1, c3state2],
    inboxes := [c3inbox],
    nextStateId := 3 }

/-- C3 counterexample: the exception raised drafting for lead 1 aborts the
whole tick — `run_campaign_tick` has no exception handling — so lead 2's
state is never processed (the error even carries the database unchanged),
although processing lead 2's state by itself succeeds and advances it to
`waiting_approval`. -/
theorem per_lead_isolation_counterexample :
    runCampaignTick (mkTestEnv 1000) c3db none =
      Except.error ("Lead has no email", c3db) ∧
    (processState (mkTestEnv 1000) c3db 2).map
        (fun db => db.states.map (fun s => (s.id, s.status))) =
      Except.ok [(1, "active"), (2, "waiting_approval")] ∧
    (∀ s ∈ c3db.states, s.id = 2 → s.status = "active") := by
  exact ⟨by decide, by decide, by decide⟩

/-- C3 (amended): failures are NOT isolated — an error raised while
processing one state propagates out of the per-campaign state loop and
aborts the processing of every state after it in the same tick. -/
theorem processDue_error_aborts_rest (env : Env) (e : String × Db)
    (l₁ l₂ : List LeadCampaignState) (db : Db)
    (h : processDue env db l₁ = Except.error e) :
    processDue env db (l₁ ++ l₂) = Except.error e := by
  induction l₁ generalizing db with
  | nil => exact absurd h (by simp [processDue])
  | cons s rest ih =>
    simp only [processDue, List.cons_append] at h ⊢
    cases hnd : notYetDue s env.now with
    | true =>
      rw [if_pos (by simp [hnd])] at h ⊢
      exact ih db h
    | false =>
      rw [if_neg (by simp [hnd])] at h ⊢
      cases hps : processState env db s.id with
      | error e₁ =>
        rw [hps] at h
        exact h
      | ok db₁ =>
        rw [hps] at h
        dsimp only at h ⊢
        cases hpd : processDue env db₁ rest with
        | error e₂ =>
          rw [hpd] at h
          cases h
          rw [List.append_eq, ih db₁ hpd]
        | ok p =>
          rw [hpd] at h
          exact absurd h (by simp)

/-- C3 witness: with lead 1's failing state first, the appended loop over
both states aborts with lead 1's error. -/
theorem processDue_error_aborts_rest_witness :
    processDue (mkTestEnv 1000) c3db ([c3state1] ++ [c3state2]) =
      Except.error ("Lead has no email", c3db) :=
  processDue_error_aborts_rest (mkTestEnv 1000) ("Lead has no email", c3db)
    [c3state1] [c3state2] c3db (by decide)

/-! ## C2 — the opt-out guard

The campaign phase of a tick never touches the OutboundMessage table at
all (sends are approval-gated outside the tick), proved by the exact
`messages`-frame lemmas below; reply ingestion only ever appends
inbound-direction rows, proved by the membership lemmas after them. -/

theorem saveStateRow_messages (db : Db) (s : LeadCampaignState) :
    (saveStateRow db s).messages = db.messages := rfl

theorem saveLeadRow_messages (db : Db) (l : Lead) :
    (saveLeadRow db l).messages = db.messages := rfl

theorem saveInboxRow_messages (db : Db) (i : OutboundInbox) :
    (saveInboxRow db i).messages = db.messages := rfl

theorem saveDraftRow_messages (db : Db) (d : CampaignEmailDraft) :
    (saveDraftRow db d).messages = db.messages := rfl

theorem saveStateNow_messages (env : Env) (db : Db) (s : LeadCampaignState) :
    (saveStateNow env db s).messages = db.messages := rfl

theorem recordActivity_messages (env : Env) (db : Db) (lid : Nat)
    (cid iid : Option Nat) (t : String) :
    (recordActivity env db lid cid iid t).messages = db.messages := by
  unfold recordActivity
  dsimp only
  split <;> rfl

theorem awardPoints_messages (env : Env) (db : Db) (lid : Nat)
    (cid iid : Option Nat) (pts : Int) :
    (awardPoints env db lid cid iid pts).messages = db.messages := by
  unfold awardPoints
  dsimp only
  split
  · rfl
  · split <;> rfl

theorem transitionToEdge_messages (env : Env) (db : Db)
    (state : LeadCampaignState) (cur : Option CampaignStep)
    (edge : Option CampaignEdge) (fb : Bool) (db' : Db)
    (h : transitionToEdge env db state cur edge fb = Except.ok db') :
    db'.messages = db.messages := by
  unfold transitionToEdge at h
  repeat' split at h
  all_goals first
    | exact Except.noConfusion h
    | (injection h with h; subst h; rfl)

theorem createEmailDraftCont_messages (env : Env) (db : Db)
    (state : LeadCampaignState) (campaign : Campaign) (step : CampaignStep)
    (lead : Lead) (leadEmail : String) (inbox : OutboundInbox) (db' : Db)
    (h : createEmailDraftCont env db state campaign step lead leadEmail inbox =
      Except.ok db') :
    db'.messages = db.messages := by
  unfold createEmailDraftCont at h
  repeat' split at h
  all_goals first
    | exact Except.noConfusion h
    | (dsimp only at h; injection h with h; subst h;
       simp only [recordActivity_messages, saveStateNow_messages])

theorem createEmailDraft_messages (env : Env) (db : Db)
    (state : LeadCampaignState) (campaign : Campaign) (step : CampaignStep)
    (db' : Db)
    (h : createEmailDraft env db state campaign step = Except.ok db') :
    db'.messages = db.messages := by
  unfold createEmailDraft at h
  dsimp only at h
  repeat' split at h
  all_goals first
    | exact Except.noConfusion h
    | exact (createEmailDraftCont_messages _ _ _ _ _ _ _ _ _ h).trans rfl

theorem processStepDispatch_messages (env : Env) (db : Db)
    (state : LeadCampaignState) (lead : Lead) (campaign : Campaign)
    (st : CampaignStep) (db' : Db)
    (h : processStepDispatch env db state lead campaign st = Except.ok db') :
    db'.messages = db.messages := by
  unfold processStepDispatch at h
  dsimp only at h
  repeat' split at h
  all_goals first
    | exact Except.noConfusion h
    | (injection h with h; subst h; rfl)
    | exact transitionToEdge_messages _ _ _ _ _ _ _ h
    | exact (transitionToEdge_messages _ _ _ _ _ _ _ h).trans
        (awardPoints_messages _ _ _ _ _ _)
    | exact createEmailDraft_messages _ _ _ _ _ _ h
    | (injection h with h; subst h
       simp only [recordActivity_messages, saveStateNow_messages,
         awardPoints_messages]
       first
         | done
         | (rename_i heq; exact transitionToEdge_messages _ _ _ _ _ _ _ heq))

set_option maxHeartbeats 1000000 in
theorem processState_messages (env : Env) (db : Db) (sid : Nat) (db' : Db)
    (h : processState env db sid = Except.ok db') :
    db'.messages = db.messages := by
  unfold processState at h
  dsimp only at h
  repeat' split at h
  all_goals first
    | exact Except.noConfusion h
    | (injection h with h; subst h; rfl)
    | exact transitionToEdge_messages _ _ _ _ _ _ _ h
    | exact processStepDispatch_messages _ _ _ _ _ _ _ h
    | exact (processStepDispatch_messages _ _ _ _ _ _ _ h).trans rfl

theorem processDue_messages (env : Env) :
    ∀ (l : List LeadCampaignState) (db db' : Db) (n : Nat),
    processDue env db l = Except.ok (db', n) → db'.messages = db.messages := by
  intro l
  induction l with
  | nil =>
    intro db db' n h
    simp only [processDue, Except.ok.injEq, Prod.mk.injEq] at h
    rw [← h.1]
  | cons s rest ih =>
    intro db db' n h
    simp only [processDue] at h
    split at h
    · exact ih db db' n h
    · cases hps : processState env db s.id with
      | error e => rw [hps] at h; exact Except.noConfusion h
      | ok db₁ =>
        rw [hps] at h
        dsimp only at h
        cases hpd : processDue env db₁ rest with
        | error e => rw [hpd] at h; exact Except.noConfusion h
        | ok p =>
          obtain ⟨db₂, n₂⟩ := p
          rw [hpd] at h
          dsimp only at h
          simp only [Except.ok.injEq, Prod.mk.injEq] at h
          obtain ⟨h1, -⟩ := h
          subst h1
          exact (ih db₁ db₂ n₂ hpd).trans (processState_messages env db s.id db₁ hps)

theorem statesPhase_messages (env : Env) (db : Db) (cid : Nat) (db' : Db)
    (n : Nat) (h : statesPhase env db cid = Except.ok (db', n)) :
    db'.messages = db.messages := by
  unfold statesPhase at h
  exact processDue_messages env _ db db' n h

theorem enrollLoop_messages (env : Env) (c : Campaign) (entry : CampaignStep) :
    ∀ (l : List Lead) (db db' : Db) (n n' : Nat),
    enrollLoop env c entry db l n = Except.ok (db', n') →
    db'.messages = db.messages := by
  intro l
  induction l with
  | nil =>
    intro db db' n n' h
    simp only [enrollLoop, Except.ok.injEq, Prod.mk.injEq] at h
    rw [← h.1]
  | cons lead rest ih =>
    intro db db' n n' h
    simp only [enrollLoop] at h
    split at h
    · exact Except.noConfusion h
    · exact (ih _ _ _ _ h).trans (recordActivity_messages _ _ _ _ _ _)

theorem enrollCont_messages (env : Env) (db : Db) (c : Campaign)
    (limit : Option Int) (db' : Db) (n : Nat)
    (h : enrollCont env db c limit = Except.ok (db', n)) :
    db'.messages = db.messages := by
  unfold enrollCont at h
  split at h
  · simp only [Except.ok.injEq, Prod.mk.injEq] at h
    rw [← h.1]
  · dsimp only at h
    split at h
    · exact Except.noConfusion h
    · exact enrollLoop_messages env c _ _ _ _ _ _ h

theorem enrollLeadsForCampaign_messages (env : Env) (db : Db) (c : Campaign)
    (db' : Db) (n : Nat)
    (h : enrollLeadsForCampaign env db c = Except.ok (db', n)) :
    db'.messages = db.messages := by
  unfold enrollLeadsForCampaign at h
  dsimp only at h
  repeat' split at h
  all_goals first
    | (simp only [Except.ok.injEq, Prod.mk.injEq] at h; rw [← h.1])
    | exact enrollCont_messages _ _ _ _ _ _ h

theorem campaignLoop_messages (env : Env) :
    ∀ (cids : List Nat) (db db' : Db) (p : Nat × Nat),
    campaignLoop env db cids = Except.ok (db', p) →
    db'.messages = db.messages := by
  intro cids
  induction cids with
  | nil =>
    intro db db' p h
    simp only [campaignLoop, Except.ok.injEq, Prod.mk.injEq] at h
    rw [← h.1]
  | cons cid rest ih =>
    intro db db' p h
    simp only [campaignLoop] at h
    split at h
    · exact ih db db' p h
    · cases he : enrollLeadsForCampaign env db _ with
      | error e => rw [he] at h; exact Except.noConfusion h
      | ok q =>
        obtain ⟨db₁, en⟩ := q
        rw [he] at h
        dsimp only at h
        cases hsp : statesPhase env db₁ cid with
        | error e => rw [hsp] at h; exact Except.noConfusion h
        | ok r =>
          obtain ⟨db₂, pr⟩ := r
          rw [hsp] at h
          dsimp only at h
          cases hcl : campaignLoop env db₂ rest with
          | error e => rw [hcl] at h; exact Except.noConfusion h
          | ok w =>
            obtain ⟨db₃, r2⟩ := w
            rw [hcl] at h
            dsimp only at h
            simp only [Except.ok.injEq, Prod.mk.injEq] at h
            obtain ⟨h1, -⟩ := h
            subst h1
            exact ((ih db₂ db₃ r2 hcl).trans
              (statesPhase_messages env db₁ cid db₂ pr hsp)).trans
              (enrollLeadsForCampaign_messages env db _ db₁ en he)

theorem replyRecordRow_mem (db : Db) (inbox : OutboundInbox) (m : InboundMsg)
    (lead : Lead) (cid? : Option Nat) :
    ∀ x ∈ (replyRecordRow db inbox m lead cid?).messages,
      x ∈ db.messages ∨ x.direction = "inbound" := by
  intro x hx
  unfold replyRecordRow at hx
  dsimp only at hx
  repeat' split at hx
  all_goals first
    | exact Or.inl hx
    | (dsimp only at hx
       rw [List.mem_append] at hx
       rcases hx with hx | hx
       · exact Or.inl hx
       · rw [List.mem_singleton] at hx
         exact Or.inr (by rw [hx]))

theorem optOutStamp_messages (env : Env) (db : Db) (lid : Nat) :
    (optOutStamp env db lid).messages = db.messages := by
  unfold optOutStamp
  split <;> rfl

theorem replyTransition_messages (env : Env) (db : Db)
    (cs : LeadCampaignState) (rstep : CampaignStep) :
    (replyTransition env db cs rstep).messages = db.messages := by
  unfold replyTransition
  split
  · split
    · rename_i heq
      exact transitionToEdge_messages _ _ _ _ _ _ _ heq
    · rfl
  · rfl

theorem replyMsgCont_mem (env : Env) (db : Db) (inbox : OutboundInbox)
    (m : InboundMsg) (lead : Lead) :
    ∀ x ∈ (replyMsgCont env db inbox m lead).1.messages,
      x ∈ db.messages ∨ x.direction = "inbound" := by
  intro x hx
  unfold replyMsgCont at hx
  dsimp only at hx
  repeat' split at hx
  all_goals
    simp only [replyTransition_messages, optOutStamp_messages,
      recordActivity_messages] at hx
  all_goals exact replyRecordRow_mem _ _ _ _ _ x hx

theorem processReplyMsg_mem (env : Env) (db : Db) (inbox : OutboundInbox)
    (m : InboundMsg) :
    ∀ x ∈ (processReplyMsg env db inbox m).1.messages,
      x ∈ db.messages ∨ x.direction = "inbound" := by
  intro x hx
  unfold processReplyMsg at hx
  split at hx
  · exact Or.inl hx
  · split at hx
    · exact Or.inl hx
    · exact replyMsgCont_mem _ _ _ _ _ x hx

theorem replyFold_mem (env : Env) (inbox : OutboundInbox) :
    ∀ (msgs : List InboundMsg) (db : Db) (n : Nat),
      ∀ x ∈ (msgs.foldl
        (fun (acc : Db × Nat) m =>
          let r := processReplyMsg env acc.1 inbox m
          (r.1, acc.2 + (if r.2 then 1 else 0)))
        (db, n)).1.messages,
      x ∈ db.messages ∨ x.direction = "inbound" := by
  intro msgs
  induction msgs with
  | nil => intro db n x hx; exact Or.inl hx
  | cons m rest ih =>
    intro db n x hx
    rw [List.foldl_cons] at hx
    rcases ih ((processReplyMsg env db inbox m).1) _ x hx with h | h
    · exact processReplyMsg_mem env db inbox m x h
    · exact Or.inr h

set_option maxHeartbeats 1000000 in
theorem processReplyEvents_mem (env : Env) (db : Db) (iid : Nat) (db' : Db)
    (n : Nat) (h : processReplyEvents env db iid = Except.ok (db', n)) :
    ∀ x ∈ db'.messages, x ∈ db.messages ∨ x.direction = "inbound" := by
  unfold processReplyEvents at h
  dsimp only at h
  repeat' split at h
  all_goals first
    | exact Except.noConfusion h
    | (simp only [Except.ok.injEq, Prod.mk.injEq] at h
       obtain ⟨h1, -⟩ := h
       subst h1
       intro x hx
       first
         | exact Or.inl hx
         | exact replyFold_mem env _ _ _ _ x hx)

theorem repliesLoop_mem (env : Env) :
    ∀ (iids : List Nat) (db db' : Db) (n : Nat),
      repliesLoop env db iids = Except.ok (db', n) →
      ∀ x ∈ db'.messages, x ∈ db.messages ∨ x.direction = "inbound" := by
  intro iids
  induction iids with
  | nil =>
    intro db db' n h
    simp only [repliesLoop, Except.ok.injEq, Prod.mk.injEq] at h
    obtain ⟨h1, -⟩ := h
    subst h1
    intro x hx
    exact Or.inl hx
  | cons iid rest ih =>
    intro db db' n h
    simp only [repliesLoop] at h
    cases hpe : processReplyEvents env db iid with
    | error e => rw [hpe] at h; exact Except.noConfusion h
    | ok q =>
      obtain ⟨db₁, n₁⟩ := q
      rw [hpe] at h
      dsimp only at h
      cases hrl : repliesLoop env db₁ rest with
      | error e => rw [hrl] at h; exact Except.noConfusion h
      | ok w =>
        obtain ⟨db₂, n₂⟩ := w
        rw [hrl] at h
        dsimp only at h
        simp only [Except.ok.injEq, Prod.mk.injEq] at h
        obtain ⟨h1, -⟩ := h
        subst h1
        intro x hx
        rcases ih db₁ db₂ n₂ hrl x hx with hin | hin
        · exact processReplyEvents_mem env db iid db₁ n₁ hpe x hin
        · exact Or.inr hin

/-- C2 (amended): the opt-out guard in `process_state` stops exactly the
state being processed, whatever its status — the guard precedes every
status branch, so on a state whose lead is opted out it returns the
database with just that state saved as `stopped` — and a successful tick
never creates an outbound-direction OutboundMessage row for any lead
(sends are approval-gated outside the tick): every message row of the
post-tick database was already present or is an inbound reply row.  States
the state loop never reaches — their `next_step_at` is still in the
future — keep their status, and reply ingestion still records rows and
activities for opted-out leads. -/
theorem optout_guard_spec (env : Env) (db : Db) :
    (∀ sid st lead, stateById db sid = some st →
        leadById db st.leadId = some lead → lead.optedOut = true →
        processState env db sid =
          Except.ok (saveStateNow env db { st with status := "stopped" })) ∧
    (∀ sel db' stats, runCampaignTick env db sel = Except.ok (db', stats) →
        ∀ x ∈ db'.messages, x ∈ db.messages ∨ x.direction = "inbound") := by
  constructor
  · intro sid st lead h1 h2 h3
    simp [processState, h1, h2, h3]
  · intro sel db' stats h
    unfold runCampaignTick at h
    dsimp only at h
    cases hrl : repliesLoop env db
        ((db.inboxes.filter (fun i => i.active)).map (fun i => i.id)) with
    | error e => rw [hrl] at h; exact Except.noConfusion h
    | ok q =>
      obtain ⟨db₁, replies⟩ := q
      rw [hrl] at h
      dsimp only at h
      cases hcl : campaignLoop env db₁
          ((selectedCampaignsOf db sel).map (fun c => c.id)) with
      | error e => rw [hcl] at h; exact Except.noConfusion h
      | ok w =>
        obtain ⟨db₂, counts⟩ := w
        rw [hcl] at h
        dsimp only at h
        simp only [Except.ok.injEq, Prod.mk.injEq] at h
        obtain ⟨h1, -⟩ := h
        subst h1
        intro x hx
        rw [campaignLoop_messages env _ db₁ db₂ counts hcl] at hx
        exact repliesLoop_mem env _ db db₁ replies hrl x hx

def c2campaign : Campaign := { id := 1, status := "launched", audienceSize := none }

/-- The opted-out lead. -/
def c2lead : Lead :=
  { plainLead 1 "carl@lead.io" with optedOut := true, optedOutAt := some 10 }

def c2step : CampaignStep :=
  { id := 1, campaignId := 1, stepType := "ai_email", sequence := 1, config := none }

/-- The opted-out lead's state, waiting out a delay until t = 1000. -/
def c2state : LeadCampaignState :=
  { plainState 1 1 1 "waiting_delay" (some 1) (some 1000) with
    assignedInboxId := some 1 }

def c2inbox : OutboundInbox :=
  { id := 1, emailAddress := "rep@corp.io", dailyCap := 100, dailySent := 0,
    lastResetAt := some 500, active := true, imapHost := some "imap.corp.io",
    imapUsername := some "rep", imapPassword := some "pw",
    imapLastUid := none, imapLastCheckedAt := none }

/-- A reply from the opted-out lead sitting in the inbox. -/
def c2msg : InboundMsg :=
  { uid := 7, fromAddr := "carl@lead.io", toAddr := "rep@corp.io",
    subject := "Re: hi", messageId := "<r1>", inReplyTo := "",
    references := "", date := 450, body := "Sounds good" }

def c2env : Env :=
  { mkTestEnv 500 with fetchNewMail := fun _ _ => Except.ok ([c2msg], some 7) }

def c2db : Db :=
  { emptyDb with
    leads := [c2lead],
    campaigns := [c2campaign],
    steps := [c2step],
    states := [c2state],
    inboxes := [c2inbox],
    nextStateId := 2 }

/-- C2 counterexample: a successful tick at t = 500 over the opted-out
lead leaves its only state `waiting_delay` (its `next_step_at` is still in
the future, so the state loop skips it and the opt-out guard never runs),
and reply ingestion creates a brand-new OutboundMessage row for the
opted-out lead — against both halves of the claim. -/
theorem optout_tick_counterexample :
    c2lead.optedOut = true ∧
    c2db.messages = [] ∧
    (runCampaignTick c2env c2db none).map
        (fun p => (p.1.states.map (fun s => (s.leadId, s.status)),
                   p.1.messages.map (fun m => (m.leadId, m.direction)))) =
      Except.ok ([(1, "waiting_delay")], [(1, "inbound")]) := by
  exact ⟨rfl, rfl, by decide⟩

def c2dbAfter : Db :=
  match runCampaignTick c2env c2db none with
  | Except.ok p => p.1
  | Except.error e => e.2

def c2stats : TickStats :=
  match runCampaignTick c2env c2db none with
  | Except.ok p => p.2
  | Except.error _ => { campaigns := 0, enrolled := 0, processed := 0, replies := 0 }

/-- C2 witness: on the concrete fixture, processing the opted-out lead's
state stops it, and every message row the tick added is inbound. -/
theorem optout_guard_spec_witness :
    processState c2env c2db 1 =
      Except.ok (saveStateNow c2env c2db { c2state with status := "stopped" }) ∧
    ∀ x ∈ c2dbAfter.messages, x ∈ c2db.messages ∨ x.direction = "inbound" := by
  refine ⟨(optout_guard_spec c2env c2db).1 1 c2state c2lead (by decide)
    (by decide) (by decide), ?_⟩
  exact (optout_guard_spec c2env c2db).2 none c2dbAfter c2stats (by decide)

end CopperCRM
